import Mathlib

/-!
Verification development for the LLM-driven NPC core of the NPCVillage
repository.  The Python sources under `src/` are shallowly embedded:

* Python strings are modelled as `List Char` (wrapped into `String` at the
  boundaries); Python `int` as `Int`; Python `float` arithmetic is modelled
  exactly over `ℚ`, and the handful of `math.sqrt` uses are modelled exactly
  through integer square roots (`Nat.sqrt`), which is justified because every
  use of a square root in the sources is either compared against an integer
  bound (so the comparison can be carried out on the squares) or floored.
* Raising an exception is modelled by `Except`/error results.
* The LLM endpoint and the HTTP layer are external inputs and are modelled
  as explicit oracle arguments.
-/

/-! ### Python string helpers (str.strip, str.split, `in`, str.count, ...) -/

/-- Characters removed by Python's `str.strip()` (ASCII fragment). -/
def pyWs (c : Char) : Bool :=
  c == ' ' || c == '\t' || c == '\n' || c == '\r' || c == '\x0b' || c == '\x0c'

/-- Drop leading Python whitespace. -/
def dropWs : List Char → List Char
  | [] => []
  | c :: cs => if pyWs c then dropWs cs else c :: cs

/-- Drop trailing Python whitespace. -/
def stripBack : List Char → List Char
  | [] => []
  | c :: cs =>
    let r := stripBack cs
    if r.isEmpty && pyWs c then [] else c :: r

/-- Python `str.strip()` on character lists. -/
def stripL (l : List Char) : List Char := stripBack (dropWs l)

/-- Python `str.strip()`. -/
def pyStrip (s : String) : String := String.mk (stripL s.toList)

theorem dropWs_head (l : List Char) (c : Char) (cs : List Char)
    (h : dropWs l = c :: cs) : pyWs c = false := by
  induction l with
  | nil => simp [dropWs] at h
  | cons a as ih =>
    by_cases ha : pyWs a
    · exact ih (by simpa [dropWs, ha] using h)
    · simp [dropWs, ha] at h
      rcases h with ⟨h1, _⟩
      simp [← h1]
      simpa using ha

theorem dropWs_of_head (l : List Char) (h : dropWs l = l) : dropWs (dropWs l) = dropWs l := by
  rw [h, h]

theorem dropWs_eq_self (c : Char) (cs : List Char) (h : pyWs c = false) :
    dropWs (c :: cs) = c :: cs := by
  simp [dropWs, h]

theorem stripBack_idem (l : List Char) : stripBack (stripBack l) = stripBack l := by
  induction l with
  | nil => simp [stripBack]
  | cons a as ih =>
    by_cases h : (stripBack as).isEmpty && pyWs a
    · simp [stripBack, h]
    · simp only [stripBack, h, if_false]
      simp only [stripBack, ih, h, if_false]

theorem stripBack_cons_shape (a : Char) (as : List Char) :
    stripBack (a :: as) = [] ∨ ∃ r, stripBack (a :: as) = a :: r := by
  by_cases h : (stripBack as).isEmpty && pyWs a
  · left; simp [stripBack, h]
  · right; exact ⟨stripBack as, by simp [stripBack, h]⟩

theorem stripL_idem (l : List Char) : stripL (stripL l) = stripL l := by
  unfold stripL
  have hdrop : dropWs (stripBack (dropWs l)) = stripBack (dropWs l) := by
    cases hd : dropWs l with
    | nil => simp [stripBack, dropWs]
    | cons c cs =>
      have hc : pyWs c = false := dropWs_head l c cs hd
      rcases stripBack_cons_shape c cs with h0 | ⟨r, hr⟩
      · simp [h0, dropWs]
      · rw [hr]; exact dropWs_eq_self c r hc
  rw [hdrop, stripBack_idem]

theorem mem_dropWs (a : Char) (l : List Char) (h : a ∈ dropWs l) : a ∈ l := by
  induction l with
  | nil => simpa [dropWs] using h
  | cons c cs ih =>
    by_cases hc : pyWs c
    · simp [dropWs, hc] at h
      exact List.mem_cons_of_mem _ (ih h)
    · simpa [dropWs, hc] using h

theorem mem_stripBack (a : Char) (l : List Char) (h : a ∈ stripBack l) : a ∈ l := by
  induction l with
  | nil => simpa [stripBack] using h
  | cons c cs ih =>
    by_cases hc : (stripBack cs).isEmpty && pyWs c
    · simp [stripBack, hc] at h
    · simp [stripBack, hc] at h
      rcases h with h | h
      · simp [h]
      · exact List.mem_cons_of_mem _ (ih h)

theorem mem_stripL (a : Char) (l : List Char) (h : a ∈ stripL l) : a ∈ l :=
  mem_dropWs a l (mem_stripBack a (dropWs l) h)

/-- Python `sub in s` for a substring pattern. -/
def containsSub (pat : List Char) : List Char → Bool
  | [] => pat.isEmpty
  | c :: cs => pat.isPrefixOf (c :: cs) || containsSub pat cs

/-- Index of the first occurrence of a substring (Python `str.find` when some). -/
def findSub (pat : List Char) : List Char → Option Nat
  | [] => if pat.isEmpty then some 0 else none
  | c :: cs => if pat.isPrefixOf (c :: cs) then some 0 else (findSub pat cs).map (· + 1)

/-- Python `str.split(sep)` for a non-empty separator, with explicit fuel. -/
def splitSepFuel (pat : List Char) : Nat → List Char → List (List Char)
  | 0, l => [l]
  | Nat.succ fuel, l =>
    match findSub pat l with
    | none => [l]
    | some i => l.take i :: splitSepFuel pat fuel (l.drop (i + pat.length))

/-- Python `str.split(sep)` (non-empty separator). -/
def pySplitSep (pat l : List Char) : List (List Char) := splitSepFuel pat (l.length + 1) l

theorem mem_splitSepFuel (pat : List Char) (fuel : Nat) :
    ∀ l p, p ∈ splitSepFuel pat fuel l → ∀ a ∈ p, a ∈ l := by
  induction fuel with
  | zero =>
    intro l p hp a ha
    simp [splitSepFuel] at hp
    exact hp ▸ ha
  | succ fuel ih =>
    intro l p hp a ha
    cases hf : findSub pat l with
    | none =>
      simp [splitSepFuel, hf] at hp
      exact hp ▸ ha
    | some i =>
      simp [splitSepFuel, hf] at hp
      rcases hp with hp | hp
      · exact List.take_subset i l (hp ▸ ha)
      · exact List.drop_subset _ l (ih _ p hp a ha)

theorem mem_pySplitSep (pat l p : List Char) (hp : p ∈ pySplitSep pat l)
    (a : Char) (ha : a ∈ p) : a ∈ l :=
  mem_splitSepFuel pat (l.length + 1) l p hp a ha

/-- Python `str.split(c)` for a single-character separator. -/
def splitChar (sep : Char) : List Char → List (List Char)
  | [] => [[]]
  | c :: cs =>
    let r := splitChar sep cs
    if c = sep then [] :: r
    else
      match r with
      | p :: ps => (c :: p) :: ps
      | [] => [[c]]

/-- Index of the first occurrence of a character (Python `str.find`). -/
def firstIdxChar (c : Char) : List Char → Option Nat
  | [] => none
  | a :: as => if a = c then some 0 else (firstIdxChar c as).map (· + 1)

theorem firstIdxChar_none (c : Char) (l : List Char) (h : c ∉ l) :
    firstIdxChar c l = none := by
  induction l with
  | nil => rfl
  | cons a as ih =>
    simp at h
    simp [firstIdxChar, Ne.symm h.1, ih h.2]

/-! ### JSON values and a model of Python's `json.loads` -/

/-- JSON values.  Numbers are modelled exactly over `ℚ` (Python decodes them
to `float`/`int`; no verified claim depends on double rounding). -/
inductive JValue where
  | jnull
  | jbool (b : Bool)
  | jnum (q : ℚ)
  | jstr (s : List Char)
  | jarr (elems : List JValue)
  | jobj (fields : List (List Char × JValue))

/-- JSON insignificant whitespace. -/
def jws (c : Char) : Bool := c == ' ' || c == '\t' || c == '\n' || c == '\r'

/-- Skip JSON whitespace. -/
def skipJWs (l : List Char) : List Char := l.dropWhile jws

/-- Value of a hex digit. -/
def hexVal (c : Char) : Option Nat :=
  if '0' ≤ c ∧ c ≤ '9' then some (c.toNat - 48)
  else if 'a' ≤ c ∧ c ≤ 'f' then some (c.toNat - 87)
  else if 'A' ≤ c ∧ c ≤ 'F' then some (c.toNat - 55)
  else none

/-- Single-character string escapes. -/
def escChar (c : Char) : Option Char :=
  if c = '"' then some '"'
  else if c = '\\' then some '\\'
  else if c = '/' then some '/'
  else if c = 'b' then some '\x08'
  else if c = 'f' then some '\x0c'
  else if c = 'n' then some '\n'
  else if c = 'r' then some '\r'
  else if c = 't' then some '\t'
  else none

/-- Numeric value of a list of decimal digits. -/
def digitsToNat (l : List Char) : Nat :=
  l.foldl (fun n c => n * 10 + (c.toNat - 48)) 0

/-- Parse a JSON number (grammar `-?(0|[1-9][0-9]*)(.[0-9]+)?([eE][+-]?[0-9]+)?`). -/
def parseJNum (l : List Char) : Except String (ℚ × List Char) :=
  let signed : Bool × List Char :=
    match l with
    | '-' :: r => (true, r)
    | _ => (false, l)
  let neg := signed.1
  match signed.2 with
  | [] => .error "Expecting value"
  | d :: ds =>
    if ¬ d.isDigit then .error "Expecting value"
    else
      let ipair : List Char × List Char :=
        if d = '0' then ([d], ds) else (d :: ds).span Char.isDigit
      let intPart := ipair.1
      let rest1 := ipair.2
      let fpair : Option (List Char) × List Char :=
        match rest1 with
        | '.' :: r2 =>
          let sp := r2.span Char.isDigit
          if sp.1.isEmpty then (none, rest1) else (some sp.1, sp.2)
        | _ => (none, rest1)
      match fpair.1, rest1 with
      | none, '.' :: _ => .error "Expecting value"
      | fracDigits, _ =>
        let rest2 := fpair.2
        let epair : Option (Bool × List Char) × List Char :=
          match rest2 with
          | e :: r3 =>
            if e = 'e' ∨ e = 'E' then
              let spair : Bool × List Char :=
                match r3 with
                | '+' :: r4 => (false, r4)
                | '-' :: r4 => (true, r4)
                | _ => (false, r3)
              let sp := spair.2.span Char.isDigit
              if sp.1.isEmpty then (none, rest2) else (some (spair.1, sp.1), sp.2)
            else (none, rest2)
          | [] => (none, rest2)
        let fracLen := (fracDigits.getD []).length
        let mant : ℚ := (digitsToNat intPart : ℚ) + (digitsToNat (fracDigits.getD []) : ℚ) / (10 : ℚ) ^ fracLen
        let withExp : ℚ :=
          match epair.1 with
          | none => mant
          | some (eneg, edigits) =>
            if eneg then mant / (10 : ℚ) ^ digitsToNat edigits
            else mant * (10 : ℚ) ^ digitsToNat edigits
        .ok ((if neg then -withExp else withExp), epair.2)

mutual

/-- Parse one JSON value (fuel-based recursive descent). -/
def parseJVal : Nat → List Char → Except String (JValue × List Char)
  | 0, _ => .error "Expecting value"
  | Nat.succ fuel, l =>
    match skipJWs l with
    | [] => .error "Expecting value"
    | c :: cs =>
      if c = '\x7b' then
        (parseJFields fuel cs true).map (fun p => (JValue.jobj p.1, p.2))
      else if c = '[' then
        (parseJElems fuel cs true).map (fun p => (JValue.jarr p.1, p.2))
      else if c = '"' then
        (parseJStr fuel cs).map (fun p => (JValue.jstr p.1, p.2))
      else if c = 't' then
        if ("rue".toList).isPrefixOf cs then .ok (JValue.jbool true, cs.drop 3)
        else .error "Expecting value"
      else if c = 'f' then
        if ("alse".toList).isPrefixOf cs then .ok (JValue.jbool false, cs.drop 4)
        else .error "Expecting value"
      else if c = 'n' then
        if ("ull".toList).isPrefixOf cs then .ok (JValue.jnull, cs.drop 3)
        else .error "Expecting value"
      else if c = '-' ∨ c.isDigit then
        (parseJNum (c :: cs)).map (fun p => (JValue.jnum p.1, p.2))
      else .error "Expecting value"

/-- Parse object members; `first` is true right after the opening brace. -/
def parseJFields : Nat → List Char → Bool → Except String (List (List Char × JValue) × List Char)
  | 0, _, _ => .error "Expecting value"
  | Nat.succ fuel, l, first =>
    match skipJWs l with
    | [] => .error "Unterminated object"
    | c :: cs =>
      if first ∧ c = '\x7d' then .ok ([], cs)
      else if c = '"' then
        match parseJStr fuel cs with
        | .error e => .error e
        | .ok (key, rest1) =>
          match skipJWs rest1 with
          | ':' :: rest2 =>
            match parseJVal fuel rest2 with
            | .error e => .error e
            | .ok (v, rest3) =>
              match skipJWs rest3 with
              | ',' :: rest4 =>
                match parseJFields fuel rest4 false with
                | .error e => .error e
                | .ok (fs, rest5) => .ok ((key, v) :: fs, rest5)
              | '\x7d' :: rest4 => .ok ([(key, v)], rest4)
              | _ => .error "Expecting ',' delimiter"
          | _ => .error "Expecting ':' delimiter"
      else .error "Expecting property name enclosed in double quotes"

/-- Parse array elements; `first` is true right after the opening bracket. -/
def parseJElems : Nat → List Char → Bool → Except String (List JValue × List Char)
  | 0, _, _ => .error "Expecting value"
  | Nat.succ fuel, l, first =>
    match skipJWs l with
    | [] => .error "Unterminated array"
    | c :: cs =>
      if first ∧ c = ']' then .ok ([], cs)
      else
        match parseJVal fuel l with
        | .error e => .error e
        | .ok (v, rest1) =>
          match skipJWs rest1 with
          | ',' :: rest2 =>
            match parseJElems fuel rest2 false with
            | .error e => .error e
            | .ok (vs, rest3) => .ok (v :: vs, rest3)
          | ']' :: rest2 => .ok ([v], rest2)
          | _ => .error "Expecting ',' delimiter"

/-- Parse the body of a JSON string (the opening quote is already consumed). -/
def parseJStr : Nat → List Char → Except String (List Char × List Char)
  | 0, _ => .error "Unterminated string"
  | Nat.succ fuel, l =>
    match l with
    | [] => .error "Unterminated string"
    | c :: cs =>
      if c = '"' then .ok ([], cs)
      else if c = '\\' then
        match cs with
        | [] => .error "Unterminated string"
        | e :: cs2 =>
          if e = 'u' then
            match cs2 with
            | h1 :: h2 :: h3 :: h4 :: cs3 =>
              match hexVal h1, hexVal h2, hexVal h3, hexVal h4 with
              | some a, some b, some c2, some d =>
                (parseJStr fuel cs3).map
                  (fun p => (Char.ofNat (a * 4096 + b * 256 + c2 * 16 + d) :: p.1, p.2))
              | _, _, _, _ => .error "Invalid uXXXX escape"
            | _ => .error "Invalid uXXXX escape"
          else
            match escChar e with
            | some ch => (parseJStr fuel cs2).map (fun p => (ch :: p.1, p.2))
            | none => .error "Invalid escape"
      else if c.toNat < 32 then .error "Invalid control character"
      else (parseJStr fuel cs).map (fun p => (c :: p.1, p.2))

end

/-- Model of Python `json.loads` over character lists: one value, then only
whitespace may remain. -/
def jsonLoadsList (l : List Char) : Except String JValue :=
  match parseJVal (2 * l.length + 8) l with
  | .error e => .error e
  | .ok (v, rest) => if (skipJWs rest).isEmpty then .ok v else .error "Extra data"

/-- Dictionary lookup; later duplicate keys win, as in Python's dict built by
`json.loads`. -/
def jLookup (key : List Char) (fields : List (List Char × JValue)) : Option JValue :=
  (fields.reverse.find? (fun kv => kv.1 == key)).map Prod.snd

/-- Key membership (`key in data`). -/
def jHasKey (key : List Char) (fields : List (List Char × JValue)) : Bool :=
  fields.any (fun kv => kv.1 == key)

/-- The set of keys of a decoded object (`data.keys()`), deduplicated in
insertion order. -/
def jKeys (fields : List (List Char × JValue)) : List (List Char) :=
  fields.foldl (fun acc kv => if acc.contains kv.1 then acc else acc ++ [kv.1]) []

/-! ### Action schema and validation (src/npc/actions.py)

The pydantic argument models are embedded with pydantic-v2 default
behaviour: missing required fields and wrong types raise a
`ValidationError`; extra keys in an argument model are ignored (none of the
`*Args` models sets `extra="forbid"`); numeric strings are leniently
coerced for int/float fields. -/

/-- Left brace, written via its code to keep string literals clean. -/
def lbr : Char := '\x7b'

/-- Right brace. -/
def rbr : Char := '\x7d'

/-- The code-fence token. -/
def fenceTok : List Char := ['\x60', '\x60', '\x60']

/-- Errors produced by `parse_action`, before rendering to strings. -/
inductive PError where
  | parseError (msg : String)
  | invalid (msg : String)
deriving DecidableEq

/-- The validated action value (the `Action` pydantic model: a name tag plus
the matching argument record). -/
inductive NPCAction where
  | say (text : List Char)
  | move (direction : List Char) (distance : ℚ)
  | moveTo (x y : Int)
  | interact (entityId : List Char)
  | transferItem (entityId itemId : List Char)
deriving DecidableEq

/-- Lenient string-to-int coercion (pydantic lax mode). -/
def strToIntLit (s : List Char) : Option Int :=
  let core : Bool × List Char :=
    match s with
    | '-' :: r => (true, r)
    | '+' :: r => (false, r)
    | _ => (false, s)
  if core.2.isEmpty ∨ ¬ core.2.all Char.isDigit then none
  else some (if core.1 then -(digitsToNat core.2 : Int) else (digitsToNat core.2 : Int))

/-- Lenient string-to-float coercion (pydantic lax mode, simple literals). -/
def strToRatLit (s : List Char) : Option ℚ :=
  let core : Bool × List Char :=
    match s with
    | '-' :: r => (true, r)
    | '+' :: r => (false, r)
    | _ => (false, s)
  let parts := splitChar '.' core.2
  match parts with
  | [ip] =>
    if ip.isEmpty ∨ ¬ ip.all Char.isDigit then none
    else some (if core.1 then -(digitsToNat ip : ℚ) else (digitsToNat ip : ℚ))
  | [ip, fp] =>
    if (ip.isEmpty ∧ fp.isEmpty) ∨ ¬ ip.all Char.isDigit ∨ ¬ fp.all Char.isDigit then none
    else
      let v : ℚ := (digitsToNat ip : ℚ) + (digitsToNat fp : ℚ) / (10 : ℚ) ^ fp.length
      some (if core.1 then -v else v)
  | _ => none

/-- Pydantic validation of an int field from a decoded JSON value. -/
def coerceInt (field : String) (v : JValue) : Except PError Int :=
  match v with
  | JValue.jnum q =>
    if q.den = 1 then .ok q.num
    else .error (.invalid (field ++ " - Input should be a valid integer, got a number with a fractional part"))
  | JValue.jstr s =>
    match strToIntLit s with
    | some n => .ok n
    | none => .error (.invalid (field ++ " - Input should be a valid integer, unable to parse string as an integer"))
  | _ => .error (.invalid (field ++ " - Input should be a valid integer"))

/-- Pydantic validation of a float field from a decoded JSON value. -/
def coerceFloat (field : String) (v : JValue) : Except PError ℚ :=
  match v with
  | JValue.jnum q => .ok q
  | JValue.jstr s =>
    match strToRatLit s with
    | some q => .ok q
    | none => .error (.invalid (field ++ " - Input should be a valid number, unable to parse string as a number"))
  | _ => .error (.invalid (field ++ " - Input should be a valid number"))

/-- `SayArgs`: `text: str`, 1..100 characters.  Extra keys are ignored. -/
def validateSayArgs (fields : List (List Char × JValue)) : Except PError (List Char) :=
  match jLookup ("text".toList) fields with
  | none => .error (.invalid "text - Field required")
  | some (JValue.jstr s) =>
    if s.length < 1 then .error (.invalid "text - String should have at least 1 character")
    else if 100 < s.length then .error (.invalid "text - String should have at most 100 characters")
    else .ok s
  | some _ => .error (.invalid "text - Input should be a valid string")

/-- `MoveArgs`: `direction ∈ {N,E,S,W}`, `distance ∈ [0.1, 5.0]`. -/
def validateMoveArgs (fields : List (List Char × JValue)) : Except PError (List Char × ℚ) :=
  match jLookup ("direction".toList) fields with
  | none => .error (.invalid "direction - Field required")
  | some (JValue.jstr s) =>
    if ¬ (s == "N".toList ∨ s == "E".toList ∨ s == "S".toList ∨ s == "W".toList) then
      .error (.invalid "direction - Input should be 'N', 'E', 'S' or 'W'")
    else
      match jLookup ("distance".toList) fields with
      | none => .error (.invalid "distance - Field required")
      | some dv =>
        match coerceFloat "distance" dv with
        | .error e => .error e
        | .ok q =>
          if q < (1 : ℚ) / 10 then .error (.invalid "distance - Input should be greater than or equal to 0.1")
          else if (5 : ℚ) < q then .error (.invalid "distance - Input should be less than or equal to 5")
          else .ok (s, q)
  | some _ => .error (.invalid "direction - Input should be 'N', 'E', 'S' or 'W'")

/-- `MoveToArgs`: `x: int`, `y: int`. -/
def validateMoveToArgs (fields : List (List Char × JValue)) : Except PError (Int × Int) :=
  match jLookup ("x".toList) fields with
  | none => .error (.invalid "x - Field required")
  | some xv =>
    match coerceInt "x" xv with
    | .error e => .error e
    | .ok x =>
      match jLookup ("y".toList) fields with
      | none => .error (.invalid "y - Field required")
      | some yv =>
        match coerceInt "y" yv with
        | .error e => .error e
        | .ok y => .ok (x, y)

/-- `InteractArgs`: `entity_id: str` (pydantic places no length constraint). -/
def validateInteractArgs (fields : List (List Char × JValue)) : Except PError (List Char) :=
  match jLookup ("entity_id".toList) fields with
  | none => .error (.invalid "entity_id - Field required")
  | some (JValue.jstr s) => .ok s
  | some _ => .error (.invalid "entity_id - Input should be a valid string")

/-- `TransferItemArgs`: `entity_id: str`, `item_id: str`. -/
def validateTransferItemArgs (fields : List (List Char × JValue)) :
    Except PError (List Char × List Char) :=
  match jLookup ("entity_id".toList) fields with
  | none => .error (.invalid "entity_id - Field required")
  | some (JValue.jstr s) =>
    match jLookup ("item_id".toList) fields with
    | none => .error (.invalid "item_id - Field required")
    | some (JValue.jstr t) => .ok (s, t)
    | some _ => .error (.invalid "item_id - Input should be a valid string")
  | some _ => .error (.invalid "entity_id - Input should be a valid string")

/-- Python `value == "name"` for a decoded JSON value against a string. -/
def isStrVal (v : JValue) (s : List Char) : Bool :=
  match v with
  | JValue.jstr t => t == s
  | _ => false

/-- Dispatch on the `action` name and validate `args` with the matching
pydantic model (source lines 96-108); a non-mapping `args` raises a
`TypeError`, caught by the outer handler as a parse error. -/
def dispatchAction (actionType argsData : JValue) : Except PError NPCAction :=
  let withArgs : (List (List Char × JValue) → Except PError NPCAction) → Except PError NPCAction :=
    fun k =>
      match argsData with
      | JValue.jobj af => k af
      | _ => .error (.parseError "argument after ** must be a mapping")
  if isStrVal actionType ("say".toList) then
    withArgs (fun af => (validateSayArgs af).map NPCAction.say)
  else if isStrVal actionType ("move".toList) then
    withArgs (fun af => (validateMoveArgs af).map (fun p => NPCAction.move p.1 p.2))
  else if isStrVal actionType ("move_to".toList) then
    withArgs (fun af => (validateMoveToArgs af).map (fun p => NPCAction.moveTo p.1 p.2))
  else if isStrVal actionType ("interact".toList) then
    withArgs (fun af => (validateInteractArgs af).map NPCAction.interact)
  else if isStrVal actionType ("transfer_item".toList) then
    withArgs (fun af => (validateTransferItemArgs af).map (fun p => NPCAction.transferItem p.1 p.2))
  else .error (.invalid "Unknown action type")

/-- The extra top-level keys beyond `action` and `args`. -/
def extraKeys (fields : List (List Char × JValue)) : List (List Char) :=
  (jKeys fields).filter (fun k => ¬ (k == ("action".toList) || k == ("args".toList)))

/-- The top-level extra-field check (source lines 110-114), run after the
argument validation succeeded. -/
def checkExtras (fields : List (List Char × JValue)) (a : NPCAction) : Except PError NPCAction :=
  if ¬ (extraKeys fields).isEmpty then
    .error (.invalid ("Extra fields not allowed: " ++
      String.intercalate ", " ((extraKeys fields).map String.mk)))
  else .ok a

/-- The post-decoding part of `parse_action`: root checks, dispatch on
`action`, argument validation, and the top-level extra-field check, in
exactly the source order. -/
def validateData : JValue → Except PError NPCAction
  | JValue.jobj fields =>
    if ¬ jHasKey ("action".toList) fields then .error (.invalid "Missing 'action' field")
    else if ¬ jHasKey ("args".toList) fields then .error (.invalid "Missing 'args' field")
    else
      match dispatchAction ((jLookup ("action".toList) fields).getD JValue.jnull)
          ((jLookup ("args".toList) fields).getD JValue.jnull) with
      | .error e => .error e
      | .ok a => checkExtras fields a
  | _ => .error (.parseError "Root must be JSON object")

/-- The fenced-input line collection: starting at the first line whose
stripped form begins with a brace, accumulate lines until the running brace
count returns to zero on a line containing a brace. -/
def collectJsonLines : List (List Char) → Int → List (List Char)
  | [], _ => []
  | L :: rest, cnt =>
    let cnt2 := cnt + (L.count lbr : Int) - (L.count rbr : Int)
    if cnt2 = 0 ∧ L.contains lbr then [L]
    else L :: collectJsonLines rest cnt2

/-- Find the first line that (stripped) starts with a brace; collect from it. -/
def findFenceJson : List (List Char) → Option (List (List Char))
  | [] => none
  | L :: rest =>
    if [lbr].isPrefixOf (stripL L) then some (collectJsonLines (L :: rest) 0)
    else findFenceJson rest

/-- The cleaning stage of `parse_action`: strip, then (only when the text
starts with a code fence) extract the brace-balanced line block. -/
def cleanRaw (raw : String) : List Char :=
  let cleaned := stripL raw.toList
  if fenceTok.isPrefixOf cleaned then
    match findFenceJson (splitChar '\n' cleaned) with
    | some ls => List.intercalate ['\n'] ls
    | none => cleaned
  else cleaned

/-- Decode then validate. -/
def parseActionCore (cleaned : List Char) : Except PError NPCAction :=
  match jsonLoadsList cleaned with
  | .error e => .error (.parseError ("Invalid JSON - " ++ e))
  | .ok d => validateData d

/-- Render the structured error exactly as the source formats it. -/
def renderPErr : PError → String
  | .parseError m => "parse_error: " ++ m
  | .invalid m => "invalid: " ++ m

/-- Model of `parse_action` (src/npc/actions.py lines 46-128). -/
def parseAction (raw : String) : Option NPCAction × String :=
  match parseActionCore (cleanRaw raw) with
  | .ok a => (some a, "")
  | .error e => (none, renderPErr e)

/-! ### Helper lemmas about the parser pipeline -/

theorem append_ne_empty_left (s t : String) (h : s.length ≠ 0) : s ++ t ≠ "" := by
  intro hc
  have h2 := congrArg String.length hc
  rw [String.length_append] at h2
  have h0 : ("" : String).length = 0 := rfl
  rw [h0] at h2
  omega

theorem exceptMap_ok {α β γ : Type} (f : α → β) (x : Except γ α) (b : β)
    (h : Except.map f x = .ok b) : ∃ a, x = .ok a ∧ b = f a := by
  cases x with
  | error e => exact absurd h (by simp [Except.map])
  | ok a =>
    have h2 : (Except.ok (f a) : Except γ β) = .ok b := h
    injection h2 with h3
    exact ⟨a, rfl, h3.symm⟩

theorem pyWs_of_jws (c : Char) (h : jws c = true) : pyWs c = true := by
  simp [jws] at h
  rcases h with ((rfl | rfl) | rfl) | rfl <;> decide

theorem skipJWs_stripL (x : List Char) : skipJWs (stripL x) = stripL x := by
  cases hd : stripL x with
  | nil => simp [skipJWs]
  | cons c cs =>
    have hc : pyWs c = false := by
      unfold stripL at hd
      cases hdx : dropWs x with
      | nil => rw [hdx] at hd; simp [stripBack] at hd
      | cons a as =>
        rw [hdx] at hd
        rcases stripBack_cons_shape a as with h0 | ⟨r, hr⟩
        · rw [h0] at hd; exact absurd hd (by simp)
        · rw [hr] at hd
          have hca : c = a := by
            have := hd
            injection this with h1 _
            exact h1.symm
          rw [hca]
          exact dropWs_head x a as hdx
    have hjc : jws c = false := by
      cases hj : jws c
      · rfl
      · exact absurd (pyWs_of_jws c hj) (by simp [hc])
    simp [skipJWs, List.dropWhile_cons, hjc]

theorem parseJVal_obj_head (fuel : Nat) (l : List Char)
    (f : List (List Char × JValue)) (rest : List Char)
    (h : parseJVal fuel l = .ok (JValue.jobj f, rest)) :
    ∃ cs, skipJWs l = lbr :: cs := by
  cases fuel with
  | zero => simp [parseJVal] at h
  | succ fuel =>
    unfold parseJVal at h
    split at h
    · simp at h
    · rename_i c cs hsk
      split_ifs at h with h1 h2 h3 h4 h4b h5 h5b h6 h6b h7
      · exact ⟨cs, by rw [hsk, h1]; rfl⟩
      all_goals
        first
        | (obtain ⟨p, _, hpe⟩ := exceptMap_ok _ _ _ h; simp at hpe)
        | simp at h

theorem jsonLoadsList_obj_head (l : List Char) (f : List (List Char × JValue))
    (h : jsonLoadsList l = .ok (JValue.jobj f)) :
    ∃ cs, skipJWs l = lbr :: cs := by
  unfold jsonLoadsList at h
  split at h
  · simp at h
  · rename_i vr v rest hp
    split at h
    · have hv : v = JValue.jobj f := by injection h
      exact parseJVal_obj_head _ _ f rest (hv ▸ hp)
    · simp at h

/-! ### C1: `parse_action` is total and returns tagged errors -/

/-- C1.  For every raw input the embedded `parse_action` (a total Lean
function, hence terminating and deterministic by construction) returns
either a validated action with empty error, or no action together with a
non-empty error string that begins with `parse_error: ` or `invalid: `. -/
theorem C1_parse_action_total (r : String) :
    (∃ a, parseAction r = (some a, "")) ∨
    ((parseAction r).1 = none ∧ (parseAction r).2 ≠ "" ∧
      ∃ m, (parseAction r).2 = "parse_error: " ++ m ∨ (parseAction r).2 = "invalid: " ++ m) := by
  cases h : parseActionCore (cleanRaw r) with
  | ok a => exact Or.inl ⟨a, by simp [parseAction, h]⟩
  | error e =>
    right
    have hr : parseAction r = (none, renderPErr e) := by simp [parseAction, h]
    cases e with
    | parseError m =>
      refine ⟨by simp [hr], ?_, m, Or.inl (by simp [hr, renderPErr])⟩
      rw [hr]
      exact append_ne_empty_left _ _ (by decide)
    | invalid m =>
      refine ⟨by simp [hr], ?_, m, Or.inr (by simp [hr, renderPErr])⟩
      rw [hr]
      exact append_ne_empty_left _ _ (by decide)

/-! ### C2: prose prefixes are not recovered -/

set_option maxRecDepth 100000 in
/-- C2 counterexample.  A prose prefix followed by a valid action JSON
object does not parse: the first-brace locating step exists only for
fenced inputs, so this input yields a parse error, although the JSON
suffix alone parses to the action with empty error. -/
theorem C2_counterexample :
    (parseAction "Here is the action: \x7b\"action\":\"say\",\"args\":\x7b\"text\":\"hi\"\x7d\x7d").1 = none ∧
    parseAction "\x7b\"action\":\"say\",\"args\":\x7b\"text\":\"hi\"\x7d\x7d" =
      (some (NPCAction.say ("hi".toList)), "") := by
  constructor
  · rfl
  · rfl

/-- C2 amended.  The substring extraction applies only to fenced inputs:
whenever the stripped input starts with neither a code fence nor a brace,
`parse_action` hands the stripped text unchanged to the JSON decoder, which
cannot yield a top-level object, so no action is returned. -/
theorem C2_amended (r : String)
    (hfence : fenceTok.isPrefixOf (stripL r.toList) = false)
    (hbrace : [lbr].isPrefixOf (stripL r.toList) = false) :
    (parseAction r).1 = none := by
  have hclean : cleanRaw r = stripL r.toList := by
    simp only [cleanRaw, hfence, Bool.false_eq_true, if_false]
  unfold parseAction parseActionCore
  rw [hclean]
  cases hj : jsonLoadsList (stripL r.toList) with
  | error e => simp
  | ok v =>
    cases v with
    | jobj fields =>
      exfalso
      obtain ⟨cs, hcs⟩ := jsonLoadsList_obj_head _ _ hj
      rw [skipJWs_stripL] at hcs
      rw [hcs] at hbrace
      simp [List.isPrefixOf] at hbrace
    | jnull => simp [validateData]
    | jbool b => simp [validateData]
    | jnum q => simp [validateData]
    | jstr s => simp [validateData]
    | jarr xs => simp [validateData]

set_option maxRecDepth 100000 in
/-- C2 witness for the amended theorem at a concrete prose input. -/
theorem C2_amended_witness :
    (parseAction "Sure thing: \x7b\"action\":\"interact\",\"args\":\x7b\"entity_id\":\"door_1\"\x7d\x7d").1 = none :=
  C2_amended _ (by decide) (by decide)

/-! ### C3: extra keys at the top level vs. inside `args` -/

set_option maxRecDepth 100000 in
/-- C3 counterexample.  An action JSON object whose `args` contains an
extra key beyond the declared parameters is accepted with empty error:
the argument validators ignore undeclared keys. -/
theorem C3_counterexample :
    parseAction "\x7b\"action\":\"say\",\"args\":\x7b\"text\":\"hi\",\"mood\":\"grim\"\x7d\x7d" =
      (some (NPCAction.say ("hi".toList)), "") := by
  rfl

/-- C3 amended.  Extra keys at the top level are never accepted (the
explicit extra-field check fires before the action is returned), while
extra keys inside `args` are silently ignored by the argument validators
(pydantic default `extra="ignore"`): a `say` args object is accepted based
solely on its `text` binding. -/
theorem C3_amended :
    (∀ fields k, k ∈ jKeys fields → k ≠ "action".toList → k ≠ "args".toList →
      ∀ a, validateData (JValue.jobj fields) ≠ .ok a) ∧
    (∀ af s, jLookup ("text".toList) af = some (JValue.jstr s) →
      1 ≤ s.length → s.length ≤ 100 → validateSayArgs af = .ok s) := by
  constructor
  · intro fields k hk hka hkg a hcontra
    have hkext : k ∈ extraKeys fields := by
      apply List.mem_filter.mpr
      refine ⟨hk, ?_⟩
      simp only [Bool.or_eq_true, beq_iff_eq, not_or, decide_eq_true_eq]
      exact ⟨by simpa using hka, by simpa using hkg⟩
    have hne : (extraKeys fields).isEmpty = false := by
      cases hfk : extraKeys fields with
      | nil => rw [hfk] at hkext; simp at hkext
      | cons x xs => simp [hfk]
    rw [show validateData (JValue.jobj fields) =
        (if ¬ jHasKey ("action".toList) fields then .error (.invalid "Missing 'action' field")
         else if ¬ jHasKey ("args".toList) fields then .error (.invalid "Missing 'args' field")
         else
           match dispatchAction ((jLookup ("action".toList) fields).getD JValue.jnull)
               ((jLookup ("args".toList) fields).getD JValue.jnull) with
           | .error e => .error e
           | .ok a => checkExtras fields a) from rfl] at hcontra
    split at hcontra
    · simp at hcontra
    · split at hcontra
      · simp at hcontra
      · split at hcontra
        · simp at hcontra
        · unfold checkExtras at hcontra
          rw [if_pos (by simp [hne])] at hcontra
          simp at hcontra
  · intro af s hlook h1 h100
    have hnil : s ≠ [] := by
      intro h
      rw [h] at h1
      simp at h1
    have hn100 : ¬ (100 < s.length) := by omega
    unfold validateSayArgs
    rw [hlook]
    simp [hnil, hn100, show ¬ s.length < 1 from by omega]

set_option maxRecDepth 100000 in
/-- C3 witness for the amended theorem at concrete inputs: a top-level
extra key `zz` is rejected, and a `say` args object with an extra key
still validates on its `text` binding. -/
theorem C3_amended_witness :
    validateData (JValue.jobj
        [("action".toList, JValue.jstr ("say".toList)),
         ("args".toList, JValue.jobj [("text".toList, JValue.jstr ("ok".toList))]),
         ("zz".toList, JValue.jnull)]) ≠ .ok (NPCAction.say ("ok".toList)) ∧
    validateSayArgs [("text".toList, JValue.jstr ("ok".toList)),
         ("extra".toList, JValue.jnum 1)] = .ok ("ok".toList) := by
  constructor
  · exact C3_amended.1 _ ("zz".toList) (by decide) (by decide) (by decide) _
  · exact C3_amended.2 _ _ (by rfl) (by decide) (by decide)

/-! ### Rectangles, characters and the observation builder (src/npc/observation.py) -/

/-- A pygame-style integer rectangle. -/
structure PRect where
  x : Int
  y : Int
  w : Int
  h : Int
deriving DecidableEq

/-- `rect.centerx` (pygame: `x + w // 2`, integer division). -/
def PRect.centerx (r : PRect) : Int := r.x + r.w / 2

/-- `rect.centery`. -/
def PRect.centery (r : PRect) : Int := r.y + r.h / 2

/-- Strict rectangle overlap, as in `rectangles_overlap` (observation.py
lines 204-215) and pygame's `colliderect`. -/
def rectanglesOverlap (r1 r2 : PRect) : Bool :=
  !(decide (r1.x + r1.w ≤ r2.x) || decide (r2.x + r2.w ≤ r1.x) ||
    decide (r1.y + r1.h ≤ r2.y) || decide (r2.y + r2.h ≤ r1.y))

/-- `world_to_tile` (floor division by the 32-pixel tile size). -/
def worldToTile (wx wy : Int) : Int × Int := (Int.fdiv wx 32, Int.fdiv wy 32)

/-- ASCII lowercase conversion (Python `str.lower()`, ASCII fragment). -/
def asciiLower (c : Char) : Char :=
  if 'A' ≤ c ∧ c ≤ 'Z' then Char.ofNat (c.toNat + 32) else c

/-- ASCII uppercase conversion. -/
def asciiUpper (c : Char) : Char :=
  if 'a' ≤ c ∧ c ≤ 'z' then Char.ofNat (c.toNat - 32) else c

/-- ASCII letter test. -/
def isAsciiAlpha (c : Char) : Bool :=
  decide ('a' ≤ c ∧ c ≤ 'z') || decide ('A' ≤ c ∧ c ≤ 'Z')

/-- Python `str.lower()`. -/
def pyLowerList (l : List Char) : List Char := l.map asciiLower

/-- Python `str.title()` helper: the flag says whether the previous character
was a letter. -/
def pyTitleAux : List Char → Bool → List Char
  | [], _ => []
  | c :: cs, prevAlpha =>
    (if isAsciiAlpha c then (if prevAlpha then asciiLower c else asciiUpper c) else c) ::
      pyTitleAux cs (isAsciiAlpha c)

/-- Python `str.title()`. -/
def pyTitle (l : List Char) : List Char := pyTitleAux l false

/-- Python `str.replace(a, b)` for single characters. -/
def pyReplaceChar (a b : Char) (l : List Char) : List Char :=
  l.map (fun c => if c = a then b else c)

/-- An inventory slot (the `{"item": item, "quantity": qty}` dict; the item
object carries its id and display name). -/
structure InvSlot where
  itemId : List Char
  itemName : List Char
  quantity : Int
deriving DecidableEq

/-- The observable state of a game character (`LLMDrivenNPC` and the player
share this shape).  `currentAction = none` models a character without a
`current_action` attribute (`hasattr` fails); `LLMDrivenNPC` itself never
defines one. -/
structure CharState where
  rect : PRect
  speed : Int
  name : List Char
  speechText : List Char
  speechTimer : Int
  isMoving : Bool
  currentAction : Option (List Char)
  currentHealth : Int
  inventory : List (Option InvSlot)
deriving DecidableEq

/-- An interactive entity record (`{"id", "kind", "x", "y"}`). -/
structure GEntity where
  id : List Char
  kind : List Char
  x : Int
  y : Int
deriving DecidableEq

/-- A visible-entity record of the observation. -/
structure VisEntity where
  id : List Char
  kind : List Char
  pos : Int × Int
deriving DecidableEq

/-- `npc.state` derivation (observation.py lines 142-150). -/
def npcStateOf (npc : CharState) : List Char :=
  match npc.currentAction with
  | none => "Idle".toList
  | some act =>
    if act = "patrol".toList then "Patrol".toList
    else if npc.isMoving then "Approach".toList
    else if ¬ npc.speechText.isEmpty then "Talk".toList
    else "Idle".toList

/-- `get_inventory_list` (zelda_game_llm_integration.py lines 170-178). -/
def getInventoryList (inv : List (Option InvSlot)) : List (List Char) :=
  let items := (inv.filterMap id).map
    (fun s => (toString s.quantity).toList ++ ("x ".toList) ++ s.itemName)
  if items.isEmpty then ["Empty".toList] else items

/-- One cell of the ASCII grid, in the source's sequential overwrite order:
floor, then walls, then doors, then the player/NPC markers. -/
def asciiCellChar (walls : List PRect) (entities : List GEntity)
    (npcTile playerTile tile : Int × Int) : Char :=
  let c0 : Char := '.'
  let c1 := if walls.any (fun w =>
      rectanglesOverlap ⟨tile.1 * 32, tile.2 * 32, 32, 32⟩ w) then '#' else c0
  let c2 := if entities.any (fun e =>
      worldToTile e.x e.y = tile ∧ containsSub ("door".toList) (pyLowerList e.id)) then 'D' else c1
  if tile = playerTile then 'P'
  else if tile = npcTile then 'N'
  else c2

/-- The observation record (the JSON document handed to the LLM). -/
structure Observation where
  npcPos : Int × Int
  npcHp : Int
  npcState : List Char
  npcInventory : List (List Char)
  playerPos : Int × Int
  playerLastSaid : Option (List Char)
  origin : Int × Int
  grid : List (List Char)
  visibleEntities : List VisEntity
  goals : List (List Char)
  cooldownMove : Int
  cooldownInteract : Int
  lastResult : Option (List Char)
  tick : Int
deriving DecidableEq

/-- Model of `build_observation` (observation.py lines 20-201). -/
def buildObservation (npc player : CharState) (walls : List PRect)
    (entities : List GEntity) (tick : Int) (lastResult : Option (List Char))
    (goals : List (List Char)) (cooldownMove cooldownInteract : Int) : Observation :=
  let npcTile := worldToTile npc.rect.centerx npc.rect.centery
  let playerTile := worldToTile player.rect.centerx player.rect.centery
  let origin := (npcTile.1 - 5, npcTile.2 - 5)
  let grid := (List.range 11).map (fun row => (List.range 11).map (fun col =>
      asciiCellChar walls entities npcTile playerTile (origin.1 + col, origin.2 + row)))
  let visible := (⟨"player".toList, "player".toList, playerTile⟩ : VisEntity) ::
      entities.filterMap (fun e =>
        let et := worldToTile e.x e.y
        if origin.1 ≤ et.1 ∧ et.1 < origin.1 + 11 ∧ origin.2 ≤ et.2 ∧ et.2 < origin.2 + 11 then
          some ⟨e.id, e.kind, et⟩
        else none)
  { npcPos := npcTile
    npcHp := npc.currentHealth
    npcState := npcStateOf npc
    npcInventory := getInventoryList npc.inventory
    playerPos := playerTile
    playerLastSaid := if player.speechText.isEmpty then none else some player.speechText
    origin := origin
    grid := grid
    visibleEntities := visible
    goals := goals
    cooldownMove := cooldownMove
    cooldownInteract := cooldownInteract
    lastResult := lastResult
    tick := tick }

/-! ### C4: grid geometry and the marker post-pass -/

/-- C4 counterexample.  With a wall overlapping the NPC's own cell, the
grid still shows `N` there: the player/NPC markers overwrite `#`, so walls
do not dominate. -/
theorem C4_counterexample :
    ((buildObservation ⟨⟨10, 10, 20, 20⟩, 4, [], [], 0, false, none, 100, []⟩
        ⟨⟨90, 90, 20, 20⟩, 4, [], [], 0, false, none, 100, []⟩
        [⟨0, 0, 4, 4⟩] [] 0 none [] 0 0).grid.getD 5 []).getD 5 ' ' = 'N' ∧
    rectanglesOverlap ⟨0, 0, 32, 32⟩ ⟨0, 0, 4, 4⟩ = true := by
  constructor
  · rfl
  · rfl

/-- C4 amended.  The grid is exactly 11 rows of 11 characters with origin
the NPC tile minus (5,5); the cell content follows the precedence
`P` over `N` over `D` over `#` over `.`: the player and NPC markers
overwrite every terrain character, including `#`. -/
theorem C4_amended :
    (∀ npc player walls entities tick lastResult goals cm ci,
      (buildObservation npc player walls entities tick lastResult goals cm ci).origin =
        ((worldToTile npc.rect.centerx npc.rect.centery).1 - 5,
         (worldToTile npc.rect.centerx npc.rect.centery).2 - 5) ∧
      (buildObservation npc player walls entities tick lastResult goals cm ci).grid.length = 11 ∧
      (∀ r, r < 11 →
        ((buildObservation npc player walls entities tick lastResult goals cm ci).grid.getD r []).length = 11) ∧
      (∀ r c, r < 11 → c < 11 →
        ((buildObservation npc player walls entities tick lastResult goals cm ci).grid.getD r []).getD c ' ' =
          asciiCellChar walls entities
            (worldToTile npc.rect.centerx npc.rect.centery)
            (worldToTile player.rect.centerx player.rect.centery)
            ((worldToTile npc.rect.centerx npc.rect.centery).1 - 5 + c,
             (worldToTile npc.rect.centerx npc.rect.centery).2 - 5 + r))) ∧
    (∀ walls entities npcTile playerTile tile,
      asciiCellChar walls entities npcTile playerTile tile =
        if tile = playerTile then 'P'
        else if tile = npcTile then 'N'
        else if entities.any (fun e =>
          worldToTile e.x e.y = tile ∧ containsSub ("door".toList) (pyLowerList e.id)) then 'D'
        else if walls.any (fun w =>
          rectanglesOverlap ⟨tile.1 * 32, tile.2 * 32, 32, 32⟩ w) then '#'
        else '.') := by
  constructor
  · intro npc player walls entities tick lastResult goals cm ci
    refine ⟨rfl, rfl, ?_, ?_⟩
    · intro r hr
      interval_cases r <;> rfl
    · intro r c hr hc
      interval_cases r <;> interval_cases c <;> rfl
  · intro walls entities npcTile playerTile tile
    unfold asciiCellChar
    by_cases hp : tile = playerTile
    · simp [hp]
    · by_cases hn : tile = npcTile
      · simp [hp, hn]
      · by_cases hd : entities.any (fun e =>
          worldToTile e.x e.y = tile ∧ containsSub ("door".toList) (pyLowerList e.id))
        · simp [hp, hn, hd]
        · by_cases hw : walls.any (fun w =>
            rectanglesOverlap ⟨tile.1 * 32, tile.2 * 32, 32, 32⟩ w)
          · simp [hp, hn, hd, hw]
          · simp [hp, hn, hd, hw]

/-- C4 witness for the amended theorem at a concrete observation. -/
theorem C4_amended_witness :
    ((buildObservation ⟨⟨10, 10, 20, 20⟩, 4, [], [], 0, false, none, 100, []⟩
        ⟨⟨90, 90, 20, 20⟩, 4, [], [], 0, false, none, 100, []⟩
        [⟨0, 0, 4, 4⟩] [] 0 none [] 0 0).grid.getD 3 []).getD 2 ' ' =
      asciiCellChar [⟨0, 0, 4, 4⟩] [] (0, 0) (3, 3) (-3, -2) ∧
    asciiCellChar [⟨0, 0, 4, 4⟩] [] (0, 0) (3, 3) (0, 0) = 'N' := by
  constructor
  · exact ((C4_amended.1 ⟨⟨10, 10, 20, 20⟩, 4, [], [], 0, false, none, 100, []⟩
      ⟨⟨90, 90, 20, 20⟩, 4, [], [], 0, false, none, 100, []⟩
      [⟨0, 0, 4, 4⟩] [] 0 none [] 0 0).2.2.2 3 2 (by decide) (by decide)).trans (by rfl)
  · exact (C4_amended.2 [⟨0, 0, 4, 4⟩] [] (0, 0) (3, 3) (0, 0)).trans (by decide)

/-! ### Character movement and inventory (zelda_game_llm_integration.py)

The per-axis movement deltas computed by the controller are of the exact
form `a / √n` (with `n = 1` for the plain integer deltas of `move`), so
they are represented symbolically and the pygame truncation of
`rect.x += delta` is computed exactly with `Nat.sqrt`. -/

/-- Fuel-based integer square root (kernel-reducible, unlike the
well-founded `Nat.sqrt`); proven equal to `Nat.sqrt` below. -/
def isqrtAux (n : Nat) : Nat → Nat → Nat
  | 0, acc => acc
  | Nat.succ fuel, acc => if (acc + 1) * (acc + 1) ≤ n then isqrtAux n fuel (acc + 1) else acc

/-- `⌊√n⌋`, computable by structural recursion. -/
def isqrt (n : Nat) : Nat := isqrtAux n n 0

theorem isqrtAux_eq_sqrt (n : Nat) :
    ∀ fuel acc, acc * acc ≤ n → Nat.sqrt n ≤ acc + fuel → isqrtAux n fuel acc = Nat.sqrt n := by
  intro fuel
  induction fuel with
  | zero =>
    intro acc hle hge
    have h1 : acc ≤ Nat.sqrt n := Nat.le_sqrt.mpr hle
    simp [isqrtAux]
    omega
  | succ fuel ih =>
    intro acc hle hge
    by_cases hstep : (acc + 1) * (acc + 1) ≤ n
    · have := ih (acc + 1) hstep (by
        have : acc + 1 ≤ Nat.sqrt n := Nat.le_sqrt.mpr hstep
        omega)
      simp [isqrtAux, hstep, this]
    · have h1 : acc ≤ Nat.sqrt n := Nat.le_sqrt.mpr hle
      have h2 : Nat.sqrt n ≤ acc := by
        by_contra hcon
        exact hstep (Nat.le_sqrt.mp (by omega))
      simp [isqrtAux, hstep]
      omega

theorem isqrt_eq_sqrt (n : Nat) : isqrt n = Nat.sqrt n :=
  isqrtAux_eq_sqrt n n 0 (by omega) (by simpa using Nat.sqrt_le_self n)

/-- The exact real number `num / √sq` (`sq = 1` for integer deltas). -/
structure SDelta where
  num : Int
  sq : Nat
deriving DecidableEq

/-- Whether the delta is zero (`if dx != 0` in `move`). -/
def SDelta.isZero (d : SDelta) : Bool := d.num == 0

/-- `⌊m / √n⌋` for naturals (exact: `⌊m/√n⌋ = ⌊√(m²/n)⌋ = Nat.sqrt (m² / n)`). -/
def floorDivSqrt (m n : Nat) : Nat := isqrt (m * m / n)

/-- Whether `|num| / √sq` is an integer. -/
def SDelta.isExact (d : SDelta) : Bool :=
  let m := d.num.natAbs
  (m * m) % d.sq == 0 && isqrt ((m * m) / d.sq) * isqrt ((m * m) / d.sq) == (m * m) / d.sq

/-- `⌊num / √sq⌋` with sign handling. -/
def SDelta.floorVal (d : SDelta) : Int :=
  if 0 ≤ d.num then (floorDivSqrt d.num.natAbs d.sq : Int)
  else if d.isExact then -(floorDivSqrt d.num.natAbs d.sq : Int)
  else -(floorDivSqrt d.num.natAbs d.sq : Int) - 1

/-- `trunc(x + num/√sq)` toward zero, as pygame's integer rect assignment
performs on `rect.x += delta`. -/
def SDelta.truncAdd (x : Int) (d : SDelta) : Int :=
  let f := x + d.floorVal
  if 0 ≤ f then f
  else if d.isExact then f
  else f + 1

/-- Truncation toward zero of a rational (Python `int(q)`). -/
def ratTrunc (q : ℚ) : Int := Int.tdiv q.num (q.den : Int)

/-- `LLMDrivenNPC.move` (lines 180-238): axis-separated movement with
screen bounds 800×600, wall collision and character collision.  The
`other` rectangles are the other characters (the source's `char != self`
filter is applied by the caller of this model). -/
def charMove (c : CharState) (dx dy : SDelta) (walls others : List PRect) : CharState :=
  let p1 : CharState × Bool :=
    if ¬ dx.isZero then
      let nx := SDelta.truncAdd c.rect.x dx
      let nr : PRect := ⟨nx, c.rect.y, c.rect.w, c.rect.h⟩
      let xValid := decide (0 ≤ nx) && decide (nx + c.rect.w ≤ 800)
      let xColl := walls.any (fun w => rectanglesOverlap nr w) ||
                   others.any (fun o => rectanglesOverlap nr o)
      if xValid && !xColl then ({c with rect := nr}, true) else (c, false)
    else (c, false)
  let c1 := p1.1
  let p2 : CharState × Bool :=
    if ¬ dy.isZero then
      let ny := SDelta.truncAdd c1.rect.y dy
      let nr : PRect := ⟨c1.rect.x, ny, c1.rect.w, c1.rect.h⟩
      let yValid := decide (0 ≤ ny) && decide (ny + c1.rect.h ≤ 600)
      let yColl := walls.any (fun w => rectanglesOverlap nr w) ||
                   others.any (fun o => rectanglesOverlap nr o)
      if yValid && !yColl then ({c1 with rect := nr}, true) else (c1, false)
    else (c1, false)
  {p2.1 with isMoving := p1.2 || p2.2}

/-- `LLMDrivenNPC.say` (lines 240-244). -/
def charSay (c : CharState) (text : List Char) : CharState :=
  {c with speechText := text, speechTimer := 0}

/-- `item.name = item_id.replace('_', ' ').title()` (line 141). -/
def itemNameOf (itemId : List Char) : List Char := pyTitle (pyReplaceChar '_' ' ' itemId)

/-- `add_item` body: put the item into the first empty slot. -/
def addItemAux : List (Option InvSlot) → List Char → Int → (List (Option InvSlot) × Bool)
  | [], _, _ => ([], false)
  | none :: rest, itemId, qty => (some ⟨itemId, itemNameOf itemId, qty⟩ :: rest, true)
  | some s :: rest, itemId, qty =>
    let r := addItemAux rest itemId qty
    (some s :: r.1, r.2)

/-- `LLMDrivenNPC.add_item` (lines 134-146). -/
def charAddItem (c : CharState) (itemId : List Char) (qty : Int) : CharState × Bool :=
  let r := addItemAux c.inventory itemId qty
  ({c with inventory := r.1}, r.2)

/-- `remove_item` body: take from the first slot holding the item. -/
def removeItemAux : List (Option InvSlot) → List Char → Int → (List (Option InvSlot) × Int)
  | [], _, _ => ([], 0)
  | none :: rest, itemId, qty =>
    let r := removeItemAux rest itemId qty
    (none :: r.1, r.2)
  | some s :: rest, itemId, qty =>
    if s.itemId = itemId then
      if s.quantity ≤ qty then (none :: rest, s.quantity)
      else (some {s with quantity := s.quantity - qty} :: rest, qty)
    else
      let r := removeItemAux rest itemId qty
      (some s :: r.1, r.2)

/-- `LLMDrivenNPC.remove_item` (lines 148-161). -/
def charRemoveItem (c : CharState) (itemId : List Char) (qty : Int) : CharState × Int :=
  let r := removeItemAux c.inventory itemId qty
  ({c with inventory := r.1}, r.2)

/-- `LLMDrivenNPC.has_item` (lines 163-168): the quantity held in the
first slot containing the item, 0 otherwise. -/
def charHasItem : List (Option InvSlot) → List Char → Int
  | [], _ => 0
  | none :: rest, itemId => charHasItem rest itemId
  | some s :: rest, itemId =>
    if s.itemId = itemId then s.quantity else charHasItem rest itemId

/-- Total quantity of an item across all slots (used to state rollback
claims; not itself a source function). -/
def totalQty (inv : List (Option InvSlot)) (itemId : List Char) : Int :=
  (inv.filterMap id).foldl (fun acc s => if s.itemId = itemId then acc + s.quantity else acc) 0

/-! ### Controller state and action executors (src/npc/controller.py) -/

/-- The mutable fields of `NPCController` (lines 17-49). -/
structure CtrlState where
  decisionInterval : Int
  lastDecisionTime : Int
  lastResult : Option (List Char)
  goals : List (List Char)
  cooldownMove : Int
  cooldownInteract : Int
  memory : List Char
  consecutiveErrors : Int
  maxConsecutiveErrors : Int
  errorBackoffTime : Int
  idleBehaviorEnabled : Bool
  activeMovement : Option (List Char)
  movementTarget : Option (Int × Int)
  movementStepsRemaining : Int
  movementDirection : Option (List Char)
  movementStepsPerCommand : Int
deriving DecidableEq

/-- `NPCController.__init__` field values. -/
def initCtrlState : CtrlState :=
  { decisionInterval := 4000
    lastDecisionTime := 0
    lastResult := none
    goals := ["greet player".toList]
    cooldownMove := 0
    cooldownInteract := 0
    memory := []
    consecutiveErrors := 0
    maxConsecutiveErrors := 3
    errorBackoffTime := 2000
    idleBehaviorEnabled := false
    activeMovement := none
    movementTarget := none
    movementStepsRemaining := 0
    movementDirection := none
    movementStepsPerCommand := 15 }

/-- `_execute_say` (lines 249-256); `npc.say` cannot fail in the model. -/
def executeSay (ctrl : CtrlState) (npc : CharState) (text : List Char) :
    CtrlState × CharState × List Char :=
  (ctrl, charSay npc text, "ok".toList)

/-- `_execute_move_dir` (lines 258-327).  The direction was validated by the
parser, so the `direction_map` lookup cannot fail; the final branch is `W`. -/
def executeMoveDir (ctrl : CtrlState) (npc : CharState) (direction : List Char)
    (distanceTiles : ℚ) (walls others : List PRect) : CtrlState × CharState × List Char :=
  if 0 < ctrl.cooldownMove then (ctrl, npc, "cooldown".toList)
  else
    let d : SDelta × SDelta :=
      if direction = "N".toList then (⟨0, 1⟩, ⟨-npc.speed, 1⟩)
      else if direction = "S".toList then (⟨0, 1⟩, ⟨npc.speed, 1⟩)
      else if direction = "E".toList then (⟨npc.speed, 1⟩, ⟨0, 1⟩)
      else (⟨-npc.speed, 1⟩, ⟨0, 1⟩)
    let oldX := npc.rect.x
    let oldY := npc.rect.y
    let npc2 := charMove npc d.1 d.2 walls others
    if npc2.rect.x ≠ oldX ∨ npc2.rect.y ≠ oldY then
      let ctrl2 := {ctrl with cooldownMove := 200}
      if ctrl.activeMovement.isNone then
        let stepsPerTile := Int.tdiv 32 npc.speed
        let totalSteps := max 1 (ratTrunc (distanceTiles * (stepsPerTile : ℚ)))
        ({ctrl2 with activeMovement := some ("move_dir".toList),
                     movementStepsRemaining := totalSteps - 1,
                     movementDirection := some direction}, npc2, "ok".toList)
      else
        let remaining := ctrl.movementStepsRemaining - 1
        if remaining ≤ 0 then
          ({ctrl2 with movementStepsRemaining := remaining,
                       activeMovement := none,
                       movementDirection := none}, npc2, "ok".toList)
        else
          ({ctrl2 with movementStepsRemaining := remaining}, npc2, "ok".toList)
    else
      ({ctrl with activeMovement := none, movementStepsRemaining := 0}, npc2,
        "blocked:wall".toList)

/-- `_execute_move_to` (lines 329-390).  With `n` the squared distance to the
target's world coordinates, `distance < 16` is `n < 256` and
`int(distance/speed)` is `⌊√n⌋ / speed` (`speed = 4 > 0` in the game; the
guard `distance > 0` is subsumed by `n ≥ 256`). -/
def executeMoveTo (ctrl : CtrlState) (npc : CharState) (tx ty : Int)
    (walls others : List PRect) : CtrlState × CharState × List Char :=
  if 0 < ctrl.cooldownMove then (ctrl, npc, "cooldown".toList)
  else
    let targetX := tx * 32
    let targetY := ty * 32
    let dx := targetX - npc.rect.centerx
    let dy := targetY - npc.rect.centery
    let n : Nat := (dx * dx + dy * dy).toNat
    if n < 256 then (ctrl, npc, "ok".toList)
    else
      let ctrl1 := {ctrl with movementTarget := some (targetX, targetY),
                              activeMovement := some ("move_to".toList),
                              movementStepsRemaining :=
                                min (Int.tdiv (isqrt n : Int) npc.speed + 10) 200}
      let npc2 := charMove npc ⟨dx * npc.speed, n⟩ ⟨dy * npc.speed, n⟩ walls others
      if npc2.rect.x ≠ npc.rect.x ∨ npc2.rect.y ≠ npc.rect.y then
        ({ctrl1 with cooldownMove := 200,
                     movementStepsRemaining := ctrl1.movementStepsRemaining - 1},
          npc2, "ok".toList)
      else
        let ctrl2 := {ctrl1 with activeMovement := none, movementTarget := none, movementStepsRemaining := 0}
        (ctrl2, npc2, "blocked:obstacle".toList)

/-- `_continue_move_to` (lines 467-529). -/
def continueMoveTo (ctrl : CtrlState) (npc : CharState) (walls others : List PRect) :
    CtrlState × CharState × List Char :=
  match ctrl.movementTarget with
  | none =>
    ({ctrl with activeMovement := none, movementStepsRemaining := 0}, npc, "ok".toList)
  | some (tx, ty) =>
    let dx := tx - npc.rect.centerx
    let dy := ty - npc.rect.centery
    let n : Nat := (dx * dx + dy * dy).toNat
    if n < 256 then
      let ctrl2 := {ctrl with activeMovement := none, movementTarget := none, movementStepsRemaining := 0}
      (ctrl2, npc, "ok".toList)
    else
      let npc2 := charMove npc ⟨dx * npc.speed, n⟩ ⟨dy * npc.speed, n⟩ walls others
      if npc2.rect.x ≠ npc.rect.x ∨ npc2.rect.y ≠ npc.rect.y then
        let rem := ctrl.movementStepsRemaining - 1
        if rem ≤ 0 then
          let ctrl2 := {ctrl with activeMovement := none, movementTarget := none, movementStepsRemaining := 0}
          (ctrl2, npc2, "ok".toList)
        else
          ({ctrl with movementStepsRemaining := rem}, npc2, "ok".toList)
      else
        let ctrl2 := {ctrl with activeMovement := none, movementTarget := none, movementStepsRemaining := 0}
        (ctrl2, npc2, "blocked:obstacle".toList)

/-- `_execute_interact` (lines 392-426); `distance > 64` is `n > 4096`. -/
def executeInteract (ctrl : CtrlState) (npc : CharState) (entityId : List Char)
    (entities : List GEntity) : CtrlState × CharState × List Char :=
  if 0 < ctrl.cooldownInteract then (ctrl, npc, "cooldown".toList)
  else
    match entities.find? (fun e => e.id == entityId) with
    | none => (ctrl, npc, "invalid: Entity not found".toList)
    | some e =>
      let dx := e.x - npc.rect.centerx
      let dy := e.y - npc.rect.centery
      if 4096 < dx * dx + dy * dy then (ctrl, npc, "blocked:too_far".toList)
      else ({ctrl with cooldownInteract := 1000}, npc, "ok".toList)

/-- `_execute_transfer_item` (lines 428-465).  `characters` are the other
characters; the first one whose `name` equals `entity_id` is the target,
and its updated state is written back into the returned list. -/
def executeTransferItem (ctrl : CtrlState) (npc : CharState) (entityId itemId : List Char)
    (characters : List CharState) : CtrlState × CharState × List CharState × List Char :=
  match characters.findIdx? (fun ch => ch.name == entityId) with
  | none => (ctrl, npc, characters, "invalid: Character not found".toList)
  | some i =>
    let target := (characters.get? i).getD npc
    let dx := target.rect.centerx - npc.rect.centerx
    let dy := target.rect.centery - npc.rect.centery
    if 4096 < dx * dx + dy * dy then (ctrl, npc, characters, "blocked:too_far".toList)
    else if charHasItem npc.inventory itemId = 0 then
      (ctrl, npc, characters, "invalid: Item not in inventory".toList)
    else
      let rem := charRemoveItem npc itemId 1
      let npc2 := rem.1
      let removedQty := rem.2
      if 0 < removedQty then
        let add := charAddItem target itemId removedQty
        if add.2 then (ctrl, npc2, characters.set i add.1, "ok".toList)
        else
          let back := charAddItem npc2 itemId removedQty
          (ctrl, back.1, characters, "blocked:inventory_full".toList)
      else (ctrl, npc2, characters, "invalid: Transfer failed".toList)

/-! ### C5: move_to has no navigator, floors the step estimate, and targets
the tile's top-left corner -/

set_option maxRecDepth 100000 in
/-- C5 counterexample.  NPC centre (12,11), `move_to(1,1)`: the squared
distance is 20² + 21² = 29², so the Euclidean distance is exactly 29 and
`⌈29/4⌉ = 8` (4·7 < 29 ≤ 4·8).  The claimed step budget would be
`min(8+10, 200) = 18` (17 after the first step); the code floors instead
(`int(29/4) = 7`) and leaves 16 steps.  Also `movement_target` is the tile's
top-left corner (32, 32), not the tile centre (48, 48), and there is no
navigator to consult. -/
theorem C5_counterexample :
    (executeMoveTo initCtrlState ⟨⟨2, 1, 20, 20⟩, 4, [], [], 0, false, none, 100, []⟩
        1 1 [] []).1.movementTarget = some (32, 32) ∧
    ((32, 32) : Int × Int) ≠ (48, 48) ∧
    ((32 : Int) - 12) * (32 - 12) + ((32 : Int) - 11) * (32 - 11) = 29 * 29 ∧
    (4 * 7 < 29 ∧ 29 ≤ 4 * 8) ∧
    (executeMoveTo initCtrlState ⟨⟨2, 1, 20, 20⟩, 4, [], [], 0, false, none, 100, []⟩
        1 1 [] []).1.movementStepsRemaining = 16 ∧
    (16 : Int) ≠ min (8 + 10) 200 ∧
    (16 : Int) ≠ min (8 + 10) 200 - 1 := by
  refine ⟨rfl, by decide, by decide, by decide, rfl, by decide, by decide⟩

/-- C5 amended.  `_execute_move_to` never returns `no_path` (the controller
has no navigator); when the cooldown is clear, the NPC is at least 16 px
from the target, and the first step succeeds (result `ok`), it sets
`movement_target` to the target tile's top-left world coordinates
`(32·x, 32·y)`, `active_movement = move_to`, and `movement_steps_remaining
= min(⌊dist/speed⌋ + 10, 200) − 1`; continuation ticks head straight for
`movement_target`. -/
theorem C5_amended :
    (∀ ctrl npc tx ty walls others,
      (executeMoveTo ctrl npc tx ty walls others).2.2 ≠ "no_path".toList ∧
      (continueMoveTo ctrl npc walls others).2.2 ≠ "no_path".toList) ∧
    (∀ (ctrl : CtrlState) (npc : CharState) (tx ty : Int) walls others,
      ctrl.cooldownMove ≤ 0 →
      ¬ ((tx * 32 - npc.rect.centerx) * (tx * 32 - npc.rect.centerx) +
         (ty * 32 - npc.rect.centery) * (ty * 32 - npc.rect.centery)).toNat < 256 →
      (executeMoveTo ctrl npc tx ty walls others).2.2 = "ok".toList →
      (executeMoveTo ctrl npc tx ty walls others).1.movementTarget = some (tx * 32, ty * 32) ∧
      (executeMoveTo ctrl npc tx ty walls others).1.activeMovement = some ("move_to".toList) ∧
      (executeMoveTo ctrl npc tx ty walls others).1.movementStepsRemaining =
        min (Int.tdiv (isqrt ((tx * 32 - npc.rect.centerx) * (tx * 32 - npc.rect.centerx) +
          (ty * 32 - npc.rect.centery) * (ty * 32 - npc.rect.centery)).toNat : Int)
          npc.speed + 10) 200 - 1) := by
  constructor
  · intro ctrl npc tx ty walls others
    constructor
    · simp only [executeMoveTo]
      split
      · simp
      · split
        · simp
        · split
          · simp
          · simp
    · simp only [continueMoveTo]
      split
      · simp
      · split
        · simp
        · split
          · split
            · simp
            · simp
          · simp
  · intro ctrl npc tx ty walls others hcool hn hres
    have hc : ¬ 0 < ctrl.cooldownMove := by omega
    simp only [executeMoveTo] at hres ⊢
    rw [if_neg hc] at hres ⊢
    rw [if_neg hn] at hres ⊢
    split at hres
    · rename_i hcond
      rw [if_pos hcond]
      exact ⟨rfl, rfl, rfl⟩
    · simp at hres

set_option maxRecDepth 100000 in
/-- C5 witness for the amended theorem at the concrete counterexample
state. -/
theorem C5_amended_witness :
    (executeMoveTo initCtrlState ⟨⟨2, 1, 20, 20⟩, 4, [], [], 0, false, none, 100, []⟩
        1 1 [] []).1.activeMovement = some ("move_to".toList) ∧
    (executeMoveTo initCtrlState ⟨⟨2, 1, 20, 20⟩, 4, [], [], 0, false, none, 100, []⟩
        1 1 [] []).2.2 ≠ "no_path".toList := by
  constructor
  · exact (C5_amended.2 initCtrlState ⟨⟨2, 1, 20, 20⟩, 4, [], [], 0, false, none, 100, []⟩
      1 1 [] [] (by decide) (by decide) (by rfl)).2.1
  · exact (C5_amended.1 initCtrlState ⟨⟨2, 1, 20, 20⟩, 4, [], [], 0, false, none, 100, []⟩
      1 1 [] []).1

/-! ### C8: transfer_item rollback loses the item when the NPC inventory is
full -/

set_option maxRecDepth 100000 in
/-- C8.  The failing input: the NPC holds `iron_sword` ×2 in slot 0 and its
other seven slots are occupied; the target `player` is 30 px away with a
completely full inventory.  `transfer_item` removes one sword (the slot
keeps quantity 1, freeing no slot), the target's `add_item` fails, and the
give-back `add_item` on the NPC silently fails too: the result is
`blocked:inventory_full` but the NPC's total count drops from 2 to 1,
contradicting the documented rollback ("give item back"). -/
theorem C8_transfer_rollback_bug :
    let sword : InvSlot := ⟨"iron_sword".toList, "Iron Sword".toList, 2⟩
    let junk : InvSlot := ⟨"rope".toList, "Rope".toList, 1⟩
    let npc : CharState := ⟨⟨0, 0, 20, 20⟩, 4, "Garruk Ironhand".toList, [], 0, false, none, 100,
      [some sword, some junk, some junk, some junk, some junk, some junk, some junk, some junk]⟩
    let player : CharState := ⟨⟨30, 0, 20, 20⟩, 4, "player".toList, [], 0, false, none, 100,
      [some junk, some junk]⟩
    let r := executeTransferItem initCtrlState npc ("player".toList) ("iron_sword".toList) [player]
    totalQty npc.inventory ("iron_sword".toList) = 2 ∧
    r.2.2.2 = "blocked:inventory_full".toList ∧
    totalQty r.2.1.inventory ("iron_sword".toList) = 1 := by
  refine ⟨by decide, by decide, by decide⟩

/-! ### C6: dialogue history (spec-modelled) -/

/-- A dialogue entry (`{speaker, message}`). -/
structure DialogueEntry where
  speaker : List Char
  message : List Char
deriving DecidableEq

/-- Modelled from the spec: `NPCController._add_to_dialogue_history` is
absent from src/npc/controller.py (only test_dialogue_history.py calls it);
per spec §3 ("DialogueEntry ... ring buffer capped at 6") and invariant 4
("Dialogue history never exceeds 6 entries; eviction is FIFO"), appending
an entry drops the oldest entries beyond the six newest. -/
def addToDialogueHistory (hist : List DialogueEntry) (e : DialogueEntry) : List DialogueEntry :=
  let h := hist ++ [e]
  if 6 < h.length then h.drop (h.length - 6) else h

/-- Histories reachable from the empty history by appends. -/
inductive DialogueReachable : List DialogueEntry → Prop
  | init : DialogueReachable []
  | step (h : List DialogueEntry) (e : DialogueEntry) :
      DialogueReachable h → DialogueReachable (addToDialogueHistory h e)

/-- C6.  Every reachable dialogue history holds at most 6 entries, and
appending to a full (6-entry) history evicts exactly the oldest entry
(FIFO). -/
theorem C6_dialogue_history :
    (∀ h, DialogueReachable h → h.length ≤ 6) ∧
    (∀ h e, h.length = 6 → addToDialogueHistory h e = h.drop 1 ++ [e]) := by
  constructor
  · intro h hr
    induction hr with
    | init => simp
    | step h e _ ih =>
      unfold addToDialogueHistory
      by_cases hlen : 6 < (h ++ [e]).length
      · simp only [if_pos hlen]
        simp only [List.length_drop, List.length_append, List.length_cons, List.length_nil]
        omega
      · simp only [if_neg hlen]
        omega
  · intro h e hlen
    unfold addToDialogueHistory
    have h7 : (h ++ [e]).length = 7 := by simp [hlen]
    rw [if_pos (by omega), h7]
    have : (7 : Nat) - 6 = 1 := by omega
    rw [this]
    exact List.drop_append_of_le_length (by omega)

/-- C6 witness: the invariant at a concrete reachable history and FIFO
eviction at a concrete full history. -/
theorem C6_dialogue_history_witness :
    (addToDialogueHistory [] ⟨"Player".toList, "hello".toList⟩).length ≤ 6 ∧
    addToDialogueHistory
        [⟨"P".toList, "1".toList⟩, ⟨"P".toList, "2".toList⟩, ⟨"P".toList, "3".toList⟩,
         ⟨"P".toList, "4".toList⟩, ⟨"P".toList, "5".toList⟩, ⟨"P".toList, "6".toList⟩]
        ⟨"P".toList, "7".toList⟩ =
      [⟨"P".toList, "2".toList⟩, ⟨"P".toList, "3".toList⟩, ⟨"P".toList, "4".toList⟩,
       ⟨"P".toList, "5".toList⟩, ⟨"P".toList, "6".toList⟩, ⟨"P".toList, "7".toList⟩] := by
  constructor
  · exact C6_dialogue_history.1 _ (DialogueReachable.step _ _ DialogueReachable.init)
  · exact (C6_dialogue_history.2
      [⟨"P".toList, "1".toList⟩, ⟨"P".toList, "2".toList⟩, ⟨"P".toList, "3".toList⟩,
       ⟨"P".toList, "4".toList⟩, ⟨"P".toList, "5".toList⟩, ⟨"P".toList, "6".toList⟩]
      ⟨"P".toList, "7".toList⟩ (by decide)).trans (by decide)

/-! ### Hierarchical navigator (src/npc/navigation.py)

Float costs are modelled over `ℚ`; `math.sqrt` is modelled by the
fixed-precision rational `qSqrt` (floor of the square root at three decimal
places).  No verified claim depends on a cost value, only on the discrete
branching of `find_path`.  Python object aliasing between
`self.portals[id]` and the `Region.portals` lists is modelled by storing
portal ids in the regions and resolving them through the portal
dictionary, so `set_portal_open` is visible to the hierarchical search
exactly as in the source. -/

/-- Fixed-precision model of `math.sqrt` on nonnegative rationals. -/
def qSqrt (q : ℚ) : ℚ := ((isqrt (q * 1000000).floor.toNat : ℚ)) / 1000

/-- Association-list lookup (first match wins; Python dicts have unique
keys). -/
def alistGet {κ α : Type} [BEq κ] (k : κ) (d : List (κ × α)) : Option α :=
  (d.find? (fun kv => kv.1 == k)).map Prod.snd

/-- A portal (navigation.py lines 56-68). -/
structure NavPortal where
  id : List Char
  region1 : Nat
  region2 : Nat
  centerX : ℚ
  centerY : ℚ
  spanTiles : List (Int × Int)
  isOpen : Bool
  isIndoor : Bool
deriving DecidableEq

/-- A region (lines 71-78); `portals` holds portal ids (object references
in the source). -/
structure NavRegion where
  id : Nat
  tiles : List (Int × Int)
  portals : List (List Char)
  isIndoor : Bool
deriving DecidableEq

/-- The navigator state (lines 81-101). -/
structure NavState where
  gridWidth : Int
  gridHeight : Int
  tileSize : Int
  walkableGrid : List (List Bool)
  regions : List (Nat × NavRegion)
  portals : List (List Char × NavPortal)
  tileToRegion : List ((Int × Int) × Nat)
  portalGraph : List (List Char × List (List Char × ℚ))
deriving DecidableEq

/-- A path query (lines 28-40). -/
structure NavPathQuery where
  startX : ℚ
  startY : ℚ
  goalX : ℚ
  goalY : ℚ
  costBias : List (List Char × ℚ)
  preferIndoor : Bool
deriving DecidableEq

/-- A path response (lines 43-53). -/
structure NavPathResponse where
  ok : Bool
  reason : List Char
  waypoints : List (ℚ × ℚ)
  totalCost : ℚ
deriving DecidableEq

/-- `_is_walkable` (lines 617-621). -/
def isWalkable (nav : NavState) (tx ty : Int) : Bool :=
  if 0 ≤ tx ∧ tx < nav.gridWidth ∧ 0 ≤ ty ∧ ty < nav.gridHeight then
    (nav.walkableGrid.getD ty.toNat []).getD tx.toNat false
  else false

/-- `_estimate_cost`/`_heuristic` (Euclidean distance). -/
def estimateCost (x1 y1 x2 y2 : ℚ) : ℚ :=
  qSqrt ((x2 - x1) * (x2 - x1) + (y2 - y1) * (y2 - y1))

/-- Lexicographic order on heap entries `(f, x, y)` as Python tuples. -/
def lexLeQ (a b : ℚ × Int × Int) : Bool :=
  decide (a.1 < b.1) || (decide (a.1 = b.1) &&
    (decide (a.2.1 < b.2.1) || (decide (a.2.1 = b.2.1) && decide (a.2.2 ≤ b.2.2))))

/-- Pop the minimum heap entry (leftmost among ties, modelling `heapq`). -/
def popMinQ : List (ℚ × Int × Int) → Option ((ℚ × Int × Int) × List (ℚ × Int × Int))
  | [] => none
  | x :: xs =>
    match popMinQ xs with
    | none => some (x, [])
    | some (m, rest) => if lexLeQ x m then some (x, xs) else some (m, x :: rest)

/-- The 8-neighbourhood, in source order. -/
def neighbors8 : List (Int × Int) :=
  [(-1, -1), (-1, 0), (-1, 1), (0, -1), (0, 1), (1, -1), (1, 0), (1, 1)]

/-- Path reconstruction from the `came_from` map. -/
def reconstructPath (cameFrom : List ((Int × Int) × (Int × Int))) (start : Int × Int) :
    Nat → (Int × Int) → List (Int × Int) → List (Int × Int)
  | 0, _, acc => start :: acc
  | Nat.succ fuel, cur, acc =>
    match alistGet cur cameFrom with
    | some prev => reconstructPath cameFrom start fuel prev (cur :: acc)
    | none => start :: acc

/-- The A* main loop of `_find_direct_path` (lines 351-393); updated
dictionary entries are modelled by prepending (latest binding wins). -/
def astarLoop (nav : NavState) (start goal : Int × Int) :
    Nat → List (ℚ × Int × Int) → List ((Int × Int) × (Int × Int)) →
    List ((Int × Int) × ℚ) → List (Int × Int)
  | 0, _, _, _ => []
  | Nat.succ fuel, openSet, cameFrom, gScore =>
    match popMinQ openSet with
    | none => []
    | some ((_, cx, cy), rest) =>
      if (cx, cy) = goal then
        reconstructPath cameFrom start (cameFrom.length + 1) (cx, cy) []
      else
        let gcur := (alistGet (cx, cy) gScore).getD 0
        let upd := neighbors8.foldl
          (fun (acc : List (ℚ × Int × Int) × List ((Int × Int) × (Int × Int)) × List ((Int × Int) × ℚ)) d =>
            let nx := cx + d.1
            let ny := cy + d.2
            if ¬ isWalkable nav nx ny then acc
            else if d.1 ≠ 0 ∧ d.2 ≠ 0 ∧
                (¬ isWalkable nav (cx + d.1) cy ∨ ¬ isWalkable nav cx (cy + d.2)) then acc
            else
              let moveCost := qSqrt ((d.1 * d.1 + d.2 * d.2 : Int) : ℚ)
              let tentative := gcur + moveCost
              let better :=
                match alistGet (nx, ny) acc.2.2 with
                | none => true
                | some g => decide (tentative < g)
              if better then
                let f := tentative + estimateCost (nx : ℚ) (ny : ℚ) (goal.1 : ℚ) (goal.2 : ℚ)
                (acc.1 ++ [(f, nx, ny)], ((nx, ny), (cx, cy)) :: acc.2.1,
                  ((nx, ny), tentative) :: acc.2.2)
              else acc)
          (rest, cameFrom, gScore)
        astarLoop nav start goal fuel upd.1 upd.2.1 upd.2.2

/-- `_find_direct_path` (lines 340-393). -/
def findDirectPath (nav : NavState) (start goal : Int × Int) : List (Int × Int) :=
  if start = goal then [start]
  else
    let fuel := 64 * (nav.gridWidth.toNat * nav.gridHeight.toNat) + 64
    astarLoop nav start goal fuel
      [(estimateCost (start.1 : ℚ) (start.2 : ℚ) (goal.1 : ℚ) (goal.2 : ℚ), start.1, start.2)]
      [] [(start, 0)]

/-- The tile of a world coordinate (`int(x // 32)`): exact floor of
`q / tileSize`, computed on the rational's components (`tileSize = 32 > 0`)
so that it reduces in the kernel. -/
def qTileCoord (nav : NavState) (q : ℚ) : Int := Int.fdiv q.num ((q.den : Int) * nav.tileSize)

/-- The Bresenham scan of `_has_line_of_sight` (lines 595-615). -/
def losLoop (nav : NavState) (tx2 ty2 xInc yInc dxI dyI : Int) :
    Nat → Int → Int → Int → Bool
  | 0, _, _, _ => true
  | Nat.succ fuel, x, y, err =>
    if ¬ isWalkable nav x y then false
    else if x = tx2 ∧ y = ty2 then true
    else
      let e1 := if err * 2 > -dyI then err - dyI else err
      let x1 := if err * 2 > -dyI then x + xInc else x
      let e2 := if e1 * 2 < dxI then e1 + dxI else e1
      let y1 := if e1 * 2 < dxI then y + yInc else y
      losLoop nav tx2 ty2 xInc yInc dxI dyI fuel x1 y1 e2

/-- `_has_line_of_sight` (lines 572-615). -/
def hasLineOfSight (nav : NavState) (p1 p2 : ℚ × ℚ) : Bool :=
  let tx1 := qTileCoord nav p1.1
  let ty1 := qTileCoord nav p1.2
  let tx2 := qTileCoord nav p2.1
  let ty2 := qTileCoord nav p2.2
  if tx1 = tx2 ∧ ty1 = ty2 then true
  else
    let dx := (tx2 - tx1).natAbs
    let dy := (ty2 - ty1).natAbs
    let xInc : Int := if tx1 < tx2 then 1 else -1
    let yInc : Int := if ty1 < ty2 then 1 else -1
    losLoop nav tx2 ty2 xInc yInc (dx : Int) (dy : Int) (dx + dy + 10) tx1 ty1 ((dx : Int) - (dy : Int))

/-- The inner scan of `_theta_star_smooth`: the farthest index reachable by
line of sight from waypoint `i`. -/
def smoothInner (nav : NavState) (w : List (ℚ × ℚ)) (i : Nat) :
    Nat → Nat → Nat → Nat
  | 0, _, last => last
  | Nat.succ fuel, j, last =>
    if j < w.length then
      if hasLineOfSight nav (w.getD i (0, 0)) (w.getD j (0, 0)) then
        smoothInner nav w i fuel (j + 1) j
      else last
    else last

/-- The outer loop of `_theta_star_smooth` (lines 543-564). -/
def smoothLoop (nav : NavState) (w : List (ℚ × ℚ)) :
    Nat → Nat → List (ℚ × ℚ) → List (ℚ × ℚ)
  | 0, _, acc => acc
  | Nat.succ fuel, i, acc =>
    if i < w.length - 1 then
      let last := smoothInner nav w i (w.length + 1) (i + 1) i
      if i < last then
        let acc2 := if last < w.length - 1 then acc ++ [w.getD last (0, 0)] else acc
        smoothLoop nav w fuel last acc2
      else
        let acc2 := if i + 1 < w.length then acc ++ [w.getD (i + 1) (0, 0)] else acc
        smoothLoop nav w fuel (i + 1) acc2
    else acc

/-- `_theta_star_smooth` (lines 535-570). -/
def thetaStarSmooth (nav : NavState) (w : List (ℚ × ℚ)) : List (ℚ × ℚ) :=
  if w.length ≤ 2 then w
  else
    let sm := smoothLoop nav w (w.length + 2) 0 [w.getD 0 (0, 0)]
    if sm.getLast? == w.getLast? then sm
    else sm ++ [w.getD (w.length - 1) (0, 0)]

/-- `_calculate_path_cost` (lines 631-642). -/
def calculatePathCost (w : List (ℚ × ℚ)) : ℚ :=
  match w with
  | [] => 0
  | [_] => 0
  | a :: b :: rest =>
    estimateCost a.1 a.2 b.1 b.2 + calculatePathCost (b :: rest)

/-- A placeholder portal for dictionary lookups whose keys are present in
every state built by `build_regions_and_portals` (a miss would raise in
Python). -/
def dummyPortal : NavPortal := ⟨[], 0, 0, 0, 0, [], true, false⟩

/-- Leftmost unvisited node of minimal tentative distance (`min` over the
unvisited set; absent distances count as infinity). -/
def dijkArgmin (distances : List (List Char × ℚ)) : List (List Char) → Option (List Char)
  | [] => none
  | x :: xs =>
    match dijkArgmin distances xs with
    | none => some x
    | some m =>
      match alistGet x distances, alistGet m distances with
      | none, none => some x
      | none, some _ => some m
      | some _, none => some x
      | some a, some b => if a ≤ b then some x else some m

/-- Dijkstra path reconstruction over portal ids. -/
def reconstructPortalPath (previous : List (List Char × List Char)) (startId : List Char) :
    Nat → List Char → List (List Char) → List (List Char)
  | 0, _, acc => startId :: acc
  | Nat.succ fuel, cur, acc =>
    match alistGet cur previous with
    | some prev => reconstructPortalPath previous startId fuel prev (cur :: acc)
    | none => startId :: acc

/-- The Dijkstra loop of `_find_portal_path` (lines 498-532). -/
def dijkstraLoop (nav : NavState) (costBias : List (List Char × ℚ)) (preferIndoor : Bool)
    (startId goalId : List Char) :
    Nat → List (List Char) → List (List Char × ℚ) → List (List Char × List Char) →
    List (List Char)
  | 0, _, _, _ => []
  | Nat.succ fuel, unvisited, distances, previous =>
    match dijkArgmin distances unvisited with
    | none => []
    | some current =>
      match alistGet current distances with
      | none => []
      | some dcur =>
        if current == goalId then
          reconstructPortalPath previous startId (previous.length + 1) current []
        else
          let unvisited2 := unvisited.filter (fun u => ¬ u == current)
          let upd := ((alistGet current nav.portalGraph).getD []).foldl
            (fun (acc : List (List Char × ℚ) × List (List Char × List Char)) nb =>
              if unvisited2.any (fun u => u == nb.1) then
                let cost1 :=
                  match alistGet nb.1 costBias with
                  | some b => nb.2 * b
                  | none => nb.2
                let cost2 :=
                  if preferIndoor ∧ ((alistGet nb.1 nav.portals).getD dummyPortal).isIndoor then
                    cost1 * (9 / 10)
                  else cost1
                let alt := dcur + cost2
                let better :=
                  match alistGet nb.1 acc.1 with
                  | none => true
                  | some dv => decide (alt < dv)
                if better then ((nb.1, alt) :: acc.1, (nb.1, current) :: acc.2)
                else acc
              else acc)
            (distances, previous)
          dijkstraLoop nav costBias preferIndoor startId goalId fuel unvisited2 upd.1 upd.2

/-- `_find_portal_path` (lines 487-533). -/
def findPortalPath (nav : NavState) (startId goalId : List Char)
    (costBias : List (List Char × ℚ)) (preferIndoor : Bool) : List (List Char) :=
  if startId == goalId then [startId]
  else
    let unvisited := nav.portalGraph.map Prod.fst
    dijkstraLoop nav costBias preferIndoor startId goalId (unvisited.length + 1)
      unvisited [(startId, 0)] []

/-- The portal-graph leg cost of a candidate path (lines 424-438). -/
def portalPathCost (nav : NavState) (costBias : List (List Char × ℚ)) (preferIndoor : Bool) :
    List (List Char) → ℚ
  | [] => 0
  | [_] => 0
  | a :: b :: rest =>
    let p1 := (alistGet a nav.portals).getD dummyPortal
    let p2 := (alistGet b nav.portals).getD dummyPortal
    let c0 := estimateCost p1.centerX p1.centerY p2.centerX p2.centerY
    let c1 :=
      match alistGet b costBias with
      | some bias => c0 * bias
      | none => c0
    let c2 := if preferIndoor ∧ p2.isIndoor then c1 * (9 / 10) else c1
    c2 + portalPathCost nav costBias preferIndoor (b :: rest)

/-- `_find_hierarchical_path` (lines 395-485).  A missing region key would
raise `KeyError` in Python. -/
def findHierarchicalPath (nav : NavState) (query : NavPathQuery)
    (startRegion goalRegion : Nat) (startTile goalTile : Int × Int) :
    Except String NavPathResponse :=
  match alistGet startRegion nav.regions, alistGet goalRegion nav.regions with
  | some sreg, some greg =>
    let startPortals := (sreg.portals.filterMap (fun pid => alistGet pid nav.portals)).filter
      (fun p => p.isOpen)
    let goalPortals := (greg.portals.filterMap (fun pid => alistGet pid nav.portals)).filter
      (fun p => p.isOpen)
    if startPortals.isEmpty ∨ goalPortals.isEmpty then
      .ok ⟨false, "NO_PATH".toList, [], 0⟩
    else
      let best := startPortals.foldl
        (fun acc sp => goalPortals.foldl
          (fun (acc : Option (ℚ × NavPortal × NavPortal × List (List Char))) gp =>
            let pp := findPortalPath nav sp.id gp.id query.costBias query.preferIndoor
            if pp.isEmpty then acc
            else
              let total := estimateCost query.startX query.startY sp.centerX sp.centerY +
                portalPathCost nav query.costBias query.preferIndoor pp +
                estimateCost gp.centerX gp.centerY query.goalX query.goalY
              match acc with
              | none => some (total, sp, gp, pp)
              | some (bc, _, _, _) => if total < bc then some (total, sp, gp, pp) else acc)
          acc)
        none
      match best with
      | none => .ok ⟨false, "NO_PATH".toList, [], 0⟩
      | some (bc, sp, gp, pp) =>
        let spTile := (qTileCoord nav sp.centerX, qTileCoord nav sp.centerY)
        let startSeg := findDirectPath nav startTile spTile
        let w1 := startSeg.dropLast.map
          (fun t => ((t.1 * 32 + 16 : ℚ), (t.2 * 32 + 16 : ℚ)))
        let w2 := pp.map (fun pid =>
          let p := (alistGet pid nav.portals).getD dummyPortal
          (p.centerX, p.centerY))
        let gpTile := (qTileCoord nav gp.centerX, qTileCoord nav gp.centerY)
        let goalSeg := findDirectPath nav gpTile goalTile
        let w3 := (goalSeg.drop 1).map
          (fun t => ((t.1 * 32 + 16 : ℚ), (t.2 * 32 + 16 : ℚ)))
        let waypoints := w1 ++ w2 ++ w3 ++ [(query.goalX, query.goalY)]
        .ok ⟨true, "SUCCESS".toList, thetaStarSmooth nav waypoints, bc⟩
  | _, _ => .error "KeyError"

/-- `find_path` (lines 298-338). -/
def findPath (nav : NavState) (query : NavPathQuery) : Except String NavPathResponse :=
  let stx := qTileCoord nav query.startX
  let sty := qTileCoord nav query.startY
  let gtx := qTileCoord nav query.goalX
  let gty := qTileCoord nav query.goalY
  if ¬ isWalkable nav stx sty then .ok ⟨false, "INVALID_START".toList, [], 0⟩
  else if ¬ isWalkable nav gtx gty then .ok ⟨false, "INVALID_GOAL".toList, [], 0⟩
  else
    match alistGet (stx, sty) nav.tileToRegion, alistGet (gtx, gty) nav.tileToRegion with
    | some sr, some gr =>
      if sr = gr then
        let wp := findDirectPath nav (stx, sty) (gtx, gty)
        if ¬ wp.isEmpty then
          let world := wp.map (fun t => ((t.1 * 32 + 16 : ℚ), (t.2 * 32 + 16 : ℚ)))
          let sm := thetaStarSmooth nav world
          .ok ⟨true, "SUCCESS".toList, sm, calculatePathCost sm⟩
        else .ok ⟨false, "NO_PATH".toList, [], 0⟩
      else findHierarchicalPath nav query sr gr (stx, sty) (gtx, gty)
    | _, _ => .ok ⟨false, "NO_PATH".toList, [], 0⟩

/-- `set_portal_open` (lines 644-647). -/
def setPortalOpen (nav : NavState) (pid : List Char) (isOpen : Bool) : NavState :=
  match alistGet pid nav.portals with
  | none => nav
  | some _ =>
    let newPortals := nav.portals.map
      (fun kv => if kv.1 == pid then (kv.1, {kv.2 with isOpen := isOpen}) else kv)
    {nav with portals := newPortals}

/-- `HierarchicalNavigator.__init__` (lines 84-106): all tiles blocked. -/
def mkNavigator (w h : Int) : NavState :=
  ⟨w, h, 32, List.replicate h.toNat (List.replicate w.toNat false), [], [], [], []⟩

/-- `set_tile_walkable` (lines 108-111). -/
def setTileWalkable (nav : NavState) (tx ty : Int) (b : Bool) : NavState :=
  if 0 ≤ tx ∧ tx < nav.gridWidth ∧ 0 ≤ ty ∧ ty < nav.gridHeight then
    let row := (nav.walkableGrid.getD ty.toNat []).set tx.toNat b
    {nav with walkableGrid := nav.walkableGrid.set ty.toNat row}
  else nav

/-- The `_flood_fill` stack loop (lines 172-186); `visited` is threaded as
in the source. -/
def floodFillLoop (nav : NavState) :
    Nat → List (Int × Int) → List (Int × Int) → List (Int × Int) →
    (List (Int × Int) × List (Int × Int))
  | 0, _, visited, tiles => (visited, tiles)
  | Nat.succ _, [], visited, tiles => (visited, tiles)
  | Nat.succ fuel, (x, y) :: stack, visited, tiles =>
    if visited.contains (x, y) ∨ ¬ isWalkable nav x y then
      floodFillLoop nav fuel stack visited tiles
    else
      let visited2 := (x, y) :: visited
      let tiles2 := (x, y) :: tiles
      let pushes := ([(0, 1), (0, -1), (1, 0), (-1, 0)] : List (Int × Int)).filterMap
        (fun d =>
          let nx := x + d.1
          let ny := y + d.2
          if 0 ≤ nx ∧ nx < nav.gridWidth ∧ 0 ≤ ny ∧ ny < nav.gridHeight ∧
              ¬ visited2.contains (nx, ny) then some (nx, ny)
          else none)
      floodFillLoop nav fuel (pushes ++ stack) visited2 tiles2

/-- `_flood_fill` (lines 164-187). -/
def floodFill (nav : NavState) (sx sy : Int) (visited : List (Int × Int)) :
    List (Int × Int) × List (Int × Int) :=
  if visited.contains (sx, sy) ∨ ¬ isWalkable nav sx sy then (visited, [])
  else floodFillLoop nav (4 * (nav.gridWidth.toNat * nav.gridHeight.toNat) + 8)
    [(sx, sy)] visited []

/-- The raster scan order `for y: for x`. -/
def scanCoords (nav : NavState) : List (Int × Int) :=
  (List.range nav.gridHeight.toNat).flatMap
    (fun y => (List.range nav.gridWidth.toNat).map (fun x => ((x : Int), (y : Int))))

/-- The region-discovery scan of `build_regions_and_portals` (lines 139-156). -/
def scanRegions (nav : NavState) :
    List (Nat × NavRegion) × List ((Int × Int) × Nat) :=
  let final := (scanCoords nav).foldl
    (fun (acc : List (Int × Int) × List (Nat × NavRegion) × List ((Int × Int) × Nat) × Nat) xy =>
      if ¬ acc.1.contains xy ∧ isWalkable nav xy.1 xy.2 then
        let ff := floodFill nav xy.1 xy.2 acc.1
        if ¬ ff.2.isEmpty then
          let rid := acc.2.2.2
          (ff.1, acc.2.1 ++ [(rid, ⟨rid, ff.2, [], false⟩)],
            acc.2.2.1 ++ ff.2.map (fun t => (t, rid)), rid + 1)
        else (ff.1, acc.2.1, acc.2.2.1, acc.2.2.2)
      else acc)
    ([], [], [], 0)
  (final.2.1, final.2.2.1)

/-- `_detect_portals` (lines 189-243): for each walkable tile, collect the
distinct regions of its walkable 4-neighbours that differ from its own; a
new portal is created for each region pair not yet covered. -/
def detectPortals (nav : NavState) : NavState :=
  let final := (scanCoords nav).foldl
    (fun (acc : List (List Char × NavPortal) × List (Nat × NavRegion) × Nat) xy =>
      if ¬ isWalkable nav xy.1 xy.2 then acc
      else
        match alistGet xy nav.tileToRegion with
        | none => acc
        | some cur =>
          let adjacent := (([(xy.1 + 1, xy.2), (xy.1 - 1, xy.2), (xy.1, xy.2 + 1),
              (xy.1, xy.2 - 1)] : List (Int × Int)).filterMap
            (fun nb =>
              if 0 ≤ nb.1 ∧ nb.1 < nav.gridWidth ∧ 0 ≤ nb.2 ∧ nb.2 < nav.gridHeight ∧
                  isWalkable nav nb.1 nb.2 then
                match alistGet nb nav.tileToRegion with
                | some r => if r ≠ cur then some r else none
                | none => none
              else none)).dedup
          adjacent.foldl
            (fun (acc : List (List Char × NavPortal) × List (Nat × NavRegion) × Nat) other =>
              let existing := acc.1.any (fun kv =>
                (kv.2.region1 = cur ∧ kv.2.region2 = other) ∨
                (kv.2.region1 = other ∧ kv.2.region2 = cur))
              if existing then acc
              else
                let pid := ("portal_".toList) ++ (toString acc.2.2).toList
                let portal : NavPortal :=
                  ⟨pid, cur, other, (xy.1 * 32 + 16 : ℚ), (xy.2 * 32 + 16 : ℚ), [xy], true, false⟩
                let regions2 := acc.2.1.map (fun rkv =>
                  if rkv.1 = cur ∨ rkv.1 = other then
                    (rkv.1, {rkv.2 with portals := rkv.2.portals ++ [pid]})
                  else rkv)
                (acc.1 ++ [(pid, portal)], regions2, acc.2.2 + 1))
            acc)
    (nav.portals, nav.regions, 0)
  {nav with portals := final.1, regions := final.2.1}

/-- `_build_portal_graph` (lines 277-296). -/
def buildPortalGraphOf (portals : List (List Char × NavPortal))
    (regions : List (Nat × NavRegion)) : List (List Char × List (List Char × ℚ)) :=
  regions.foldl
    (fun graph rkv =>
      (rkv.2.portals.enum).foldl
        (fun (graph : List (List Char × List (List Char × ℚ))) ip =>
          let p1id := ip.2
          let graph1 := if graph.any (fun g => g.1 == p1id) then graph else graph ++ [(p1id, [])]
          let adds := (rkv.2.portals.enum).filterMap (fun jp =>
            if ip.1 ≠ jp.1 then
              let p1 := (alistGet p1id portals).getD dummyPortal
              let p2 := (alistGet jp.2 portals).getD dummyPortal
              some (jp.2, estimateCost p1.centerX p1.centerY p2.centerX p2.centerY)
            else none)
          graph1.map (fun g => if g.1 == p1id then (g.1, g.2 ++ adds) else g))
        graph)
    []

/-- `build_regions_and_portals` (lines 132-162). -/
def buildRegionsAndPortals (nav : NavState) : NavState :=
  let scan := scanRegions nav
  let nav1 := {nav with regions := scan.1, tileToRegion := scan.2, portals := [], portalGraph := []}
  let nav2 := detectPortals nav1
  {nav2 with portalGraph := buildPortalGraphOf nav2.portals nav2.regions}

/-! ### C9: closed portals yield NO_PATH across regions -/

/-- C9.  If the start and goal tiles are walkable but lie in different
regions, and every portal of the navigator is closed (as `set_portal_open
(id, false)` leaves them), then `find_path` returns `ok = false` with
reason `NO_PATH`: the hierarchical search filters region portals by
`is_open` and finds none. -/
theorem C9_closed_portals_no_path (nav : NavState) (query : NavPathQuery)
    (sr gr : Nat) (sreg greg : NavRegion)
    (hsw : isWalkable nav (qTileCoord nav query.startX) (qTileCoord nav query.startY) = true)
    (hgw : isWalkable nav (qTileCoord nav query.goalX) (qTileCoord nav query.goalY) = true)
    (hsr : alistGet (qTileCoord nav query.startX, qTileCoord nav query.startY)
      nav.tileToRegion = some sr)
    (hgr : alistGet (qTileCoord nav query.goalX, qTileCoord nav query.goalY)
      nav.tileToRegion = some gr)
    (hne : sr ≠ gr)
    (hsreg : alistGet sr nav.regions = some sreg)
    (hgreg : alistGet gr nav.regions = some greg)
    (hclosed : ∀ kv ∈ nav.portals, kv.2.isOpen = false) :
    findPath nav query = .ok ⟨false, "NO_PATH".toList, [], 0⟩ := by
  have hopenEmpty : ∀ pids : List (List Char),
      ((pids.filterMap (fun pid => alistGet pid nav.portals)).filter
        (fun p => p.isOpen)).isEmpty = true := by
    intro pids
    rw [List.isEmpty_iff]
    rw [List.filter_eq_nil_iff]
    intro p hp
    obtain ⟨pid, _, hget⟩ := List.mem_filterMap.mp hp
    unfold alistGet at hget
    cases hfind : nav.portals.find? (fun kv => kv.1 == pid) with
    | none => rw [hfind] at hget; simp at hget
    | some kv =>
      rw [hfind] at hget
      simp at hget
      have hmem := List.mem_of_find?_eq_some hfind
      have := hclosed kv hmem
      rw [hget] at this
      simp [this]
  unfold findPath
  rw [if_neg (by simp [hsw]), if_neg (by simp [hgw])]
  rw [hsr, hgr]
  simp only
  rw [if_neg hne]
  unfold findHierarchicalPath
  rw [hsreg, hgreg]
  simp only
  rw [if_pos (Or.inl (hopenEmpty sreg.portals))]

/-- C9 witness: a 3×1 grid whose middle tile is blocked, built by
`build_regions_and_portals`, has two regions (and no portals, all
vacuously closed); `find_path` from tile (0,0) to tile (2,0) returns
NO_PATH. -/
theorem C9_closed_portals_no_path_witness :
    findPath
      (buildRegionsAndPortals
        (setTileWalkable (setTileWalkable (mkNavigator 3 1) 0 0 true) 2 0 true))
      ⟨0, 0, 64, 0, [], false⟩ = .ok ⟨false, "NO_PATH".toList, [], 0⟩ :=
  C9_closed_portals_no_path _ _ 0 1 ⟨0, [(0, 0)], [], false⟩ ⟨1, [(2, 0)], [], false⟩
    (by decide) (by decide) (by decide) (by decide) (by decide) (by decide) (by decide)
    (by decide)

/-! ### LLM client (src/npc/llm_client.py) -/

/-- Python truthiness of a decoded JSON value. -/
def jTruthy : JValue → Bool
  | .jnull => false
  | .jbool b => b
  | .jnum q => !(q == 0)
  | .jstr s => !s.isEmpty
  | .jarr xs => !xs.isEmpty
  | .jobj fs => !fs.isEmpty

/-- The fenced-part scan of `_extract_json` (lines 130-137). -/
def fenceCandidate : List (List Char) → Option (List Char)
  | [] => none
  | p :: ps =>
    let p1 := stripL p
    let p2 := if ("json".toList).isPrefixOf p1 then stripL (p1.drop 4) else p1
    if ([lbr].isPrefixOf p2) && (p2.getLast? == some rbr) then some p2
    else fenceCandidate ps

/-- The brace-matching scan of `_extract_json` (lines 144-158): the scan
starts at the first brace, so the running count stays positive until the
matching close. -/
def braceScan : List Char → Nat → Int → Option Nat
  | [], _, _ => none
  | c :: cs, i, cnt =>
    if c = lbr then braceScan cs (i + 1) (cnt + 1)
    else if c = rbr then (if cnt = 1 then some i else braceScan cs (i + 1) (cnt - 1))
    else braceScan cs (i + 1) cnt

/-- The boundary-finding part of `_extract_json` (lines 139-160). -/
def extractJsonCore (t : List Char) : List Char :=
  match firstIdxChar lbr t with
  | none => stripL t
  | some s =>
    match braceScan (t.drop s) 0 0 with
    | some e => (t.drop s).take (e + 1)
    | none => stripL t

/-- `LLMClient._extract_json` (lines 126-160). -/
def extractJson (t : List Char) : List Char :=
  if containsSub fenceTok t then
    match fenceCandidate (pySplitSep fenceTok t) with
    | some p => p
    | none => extractJsonCore t
  else extractJsonCore t

/-- An HTTP response as seen by `_make_request`; `body = none` models a
response whose `.json()` raises. -/
structure HttpResp where
  status : Int
  text : List Char
  body : Option JValue

/-- `LLMClient._make_request` (lines 90-124); every `raise` becomes an
`Except.error` carrying the exception message. -/
def makeRequest (resp : HttpResp) : Except (List Char) (List Char) :=
  if resp.status ≠ 200 then
    .error (("HTTP ".toList) ++ (toString resp.status).toList ++ (": ".toList) ++ resp.text)
  else
    match resp.body with
    | none => .error ("Expecting value".toList)
    | some data =>
      match data with
      | JValue.jobj fields =>
        match jLookup ("choices".toList) fields with
        | none => .error ("No choices in response".toList)
        | some chv =>
          if ¬ jTruthy chv then .error ("No choices in response".toList)
          else
            match chv with
            | JValue.jarr (c0 :: _) =>
              match c0 with
              | JValue.jobj c0f =>
                match (jLookup ("message".toList) c0f).getD (JValue.jobj []) with
                | JValue.jobj msgf =>
                  match (jLookup ("content".toList) msgf).getD (JValue.jstr []) with
                  | JValue.jstr raw =>
                    let content := stripL raw
                    if content.isEmpty then .error ("Empty response content".toList)
                    else .ok (extractJson content)
                  | _ => .error ("AttributeError: strip".toList)
                | _ => .error ("AttributeError: get".toList)
              | _ => .error ("AttributeError: get".toList)
            | _ => .error ("TypeError: not subscriptable".toList)
      | _ => .error ("No choices in response".toList)

/-- The retry loop of `LLMClient.decide` (lines 74-88); the fuel is the
number of attempts (`max_retries + 1 = 3`), the per-attempt transport or
request outcome is read from `attempts`. -/
def llmDecideAux (attempts : List (Except (List Char) HttpResp)) :
    Nat → Nat → (List Char × List Char)
  | 0, _ => ([], "request_failed: Max retries exceeded".toList)
  | Nat.succ fuel, attempt =>
    let outcome :=
      match attempts.getD attempt (.error ("Connection refused".toList)) with
      | .error m => Except.error m
      | .ok resp => makeRequest resp
    match outcome with
    | .ok content =>
      if ¬ content.isEmpty then (content, [])
      else llmDecideAux attempts fuel (attempt + 1)
    | .error m =>
      if attempt < 2 then llmDecideAux attempts fuel (attempt + 1)
      else ([], ("request_failed: ".toList) ++ m)

/-- `LLMClient.decide`'s result as a function of the per-attempt HTTP
outcomes (the prompt construction does not influence the returned pair). -/
def llmDecide (attempts : List (Except (List Char) HttpResp)) : List Char × List Char :=
  llmDecideAux attempts 3 0

/-! ### C10: non-JSON content passes through the client untouched -/

theorem mem_of_isPrefixOf_singleton (c : Char) (l : List Char)
    (h : [c].isPrefixOf l = true) : c ∈ l := by
  cases l with
  | nil => simp [List.isPrefixOf] at h
  | cons a as =>
    simp [List.isPrefixOf] at h
    simp [h]

theorem mem_splitChar (sep : Char) :
    ∀ l p, p ∈ splitChar sep l → ∀ a ∈ p, a ∈ l := by
  intro l
  induction l with
  | nil =>
    intro p hp a ha
    simp [splitChar] at hp
    rw [hp] at ha
    simp at ha
  | cons c cs ih =>
    intro p hp a ha
    by_cases hc : c = sep
    · simp [splitChar, hc] at hp
      rcases hp with hp | hp
      · rw [hp] at ha; simp at ha
      · exact List.mem_cons_of_mem _ (ih p hp a ha)
    · simp only [splitChar, if_neg hc] at hp
      cases hr : splitChar sep cs with
      | nil =>
        rw [hr] at hp
        simp at hp
        rw [hp] at ha
        simp at ha
        simp [ha]
      | cons q qs =>
        rw [hr] at hp
        simp at hp
        rcases hp with hp | hp
        · rw [hp] at ha
          rcases ha with _ | ha
          · simp
          · have : a ∈ cs := ih q (by rw [hr]; simp) a (by assumption)
            exact List.mem_cons_of_mem _ this
        · have : a ∈ cs := ih p (by rw [hr]; exact List.mem_cons_of_mem _ hp) a ha
          exact List.mem_cons_of_mem _ this

theorem fenceCandidate_none (t : List Char) (ht : lbr ∉ t) :
    ∀ parts, (∀ p ∈ parts, ∀ a ∈ p, a ∈ t) → fenceCandidate parts = none := by
  intro parts
  induction parts with
  | nil => intro _; rfl
  | cons p ps ih =>
    intro hsub
    have hchain : ∀ a ∈ (if ("json".toList).isPrefixOf (stripL p) then
        stripL ((stripL p).drop 4) else stripL p), a ∈ t := by
      intro a hamem
      by_cases hj : ("json".toList).isPrefixOf (stripL p)
      · rw [if_pos hj] at hamem
        exact hsub p (List.mem_cons_self p ps) a
          (mem_stripL a p (List.drop_subset 4 _ (mem_stripL a _ hamem)))
      · rw [if_neg hj] at hamem
        exact hsub p (List.mem_cons_self p ps) a (mem_stripL a p hamem)
    have hnp : ([lbr].isPrefixOf (if ("json".toList).isPrefixOf (stripL p) then
        stripL ((stripL p).drop 4) else stripL p)) = false := by
      cases hpre : [lbr].isPrefixOf (if ("json".toList).isPrefixOf (stripL p) then
          stripL ((stripL p).drop 4) else stripL p) with
      | false => rfl
      | true => exact absurd (hchain lbr (mem_of_isPrefixOf_singleton _ _ hpre)) ht
    simp only [fenceCandidate, hnp, Bool.false_and, Bool.false_eq_true, if_false]
    exact ih (fun q hq => hsub q (List.mem_cons_of_mem _ hq))

theorem extractJsonCore_no_brace (t : List Char) (ht : lbr ∉ t)
    (hstable : stripL t = t) : extractJsonCore t = t := by
  unfold extractJsonCore
  rw [firstIdxChar_none lbr t ht]
  exact hstable

theorem extractJson_no_brace (t : List Char) (ht : lbr ∉ t)
    (hstable : stripL t = t) : extractJson t = t := by
  unfold extractJson
  by_cases hc : containsSub fenceTok t
  · rw [if_pos hc]
    rw [fenceCandidate_none t ht (pySplitSep fenceTok t)
      (fun p hp a ha => mem_pySplitSep fenceTok t p hp a ha)]
    exact extractJsonCore_no_brace t ht hstable
  · rw [if_neg hc]
    exact extractJsonCore_no_brace t ht hstable

theorem findFenceJson_none (t : List Char) (ht : lbr ∉ t) :
    ∀ lines, (∀ L ∈ lines, ∀ a ∈ L, a ∈ t) → findFenceJson lines = none := by
  intro lines
  induction lines with
  | nil => intro _; rfl
  | cons L ls ih =>
    intro hsub
    have hnp : ([lbr].isPrefixOf (stripL L)) = false := by
      cases hpre : [lbr].isPrefixOf (stripL L) with
      | false => rfl
      | true =>
        exact absurd (hsub L (List.mem_cons_self L ls) lbr
          (mem_stripL _ _ (mem_of_isPrefixOf_singleton _ _ hpre))) ht
    simp only [findFenceJson, hnp, Bool.false_eq_true, if_false]
    exact ih (fun q hq => hsub q (List.mem_cons_of_mem _ hq))

theorem parse_none_of_no_brace (s : String) (h : lbr ∉ s.toList) :
    (parseAction s).1 = none := by
  have hstrip : lbr ∉ stripL s.toList := fun hm => h (mem_stripL _ _ hm)
  have hffj : findFenceJson (splitChar '\n' (stripL s.toList)) = none :=
    findFenceJson_none _ hstrip _
      (fun L hL a ha => mem_splitChar '\n' (stripL s.toList) L hL a ha)
  have hclean : cleanRaw s = stripL s.toList := by
    unfold cleanRaw
    cases hf : fenceTok.isPrefixOf (stripL s.toList) with
    | false => simp only [hf, Bool.false_eq_true, if_false]
    | true => simp only [hf, eq_self_iff_true, if_true, hffj]
  unfold parseAction parseActionCore
  rw [hclean]
  cases hj : jsonLoadsList (stripL s.toList) with
  | error e => simp
  | ok v =>
    cases v with
    | jobj fields =>
      exfalso
      obtain ⟨cs, hcs⟩ := jsonLoadsList_obj_head _ _ hj
      rw [skipJWs_stripL] at hcs
      exact hstrip (by rw [hcs]; simp)
    | jnull => simp [validateData]
    | jbool b => simp [validateData]
    | jnum q => simp [validateData]
    | jstr str => simp [validateData]
    | jarr xs => simp [validateData]

/-- C10.  A 200 response whose message content (stripped) is non-empty and
contains no brace is returned verbatim by `_make_request`, `decide` pairs
it with the empty error, and the action parser later rejects it. -/
theorem C10_nonjson_content_passthrough
    (resp : HttpResp) (fields c0f msgf : List (List Char × JValue)) (tail0 : List JValue)
    (raw : List Char) (rest : List (Except (List Char) HttpResp))
    (hstatus : resp.status = 200)
    (hbody : resp.body = some (JValue.jobj fields))
    (hch : jLookup ("choices".toList) fields = some (JValue.jarr (JValue.jobj c0f :: tail0)))
    (hmsg : jLookup ("message".toList) c0f = some (JValue.jobj msgf))
    (hcon : jLookup ("content".toList) msgf = some (JValue.jstr raw))
    (hne : stripL raw ≠ [])
    (hnb : lbr ∉ raw) :
    makeRequest resp = .ok (stripL raw) ∧
    llmDecide (.ok resp :: rest) = (stripL raw, []) ∧
    (parseAction (String.mk (stripL raw))).1 = none := by
  have hnb2 : lbr ∉ stripL raw := fun hm => hnb (mem_stripL _ _ hm)
  have hext : extractJson (stripL raw) = stripL raw :=
    extractJson_no_brace _ hnb2 (stripL_idem raw)
  have hmk : makeRequest resp = .ok (stripL raw) := by
    unfold makeRequest
    rw [if_neg (by simp [hstatus])]
    simp only [hbody]
    simp only [hch]
    rw [if_neg (by simp [jTruthy])]
    simp only [hmsg, Option.getD_some]
    simp only [hcon, Option.getD_some]
    rw [if_neg (by simp [List.isEmpty_iff, hne])]
    rw [hext]
  refine ⟨hmk, ?_, parse_none_of_no_brace _ hnb2⟩
  have hstep : llmDecide (.ok resp :: rest) =
      (match makeRequest resp with
       | .ok content =>
         if ¬ content.isEmpty then (content, [])
         else llmDecideAux (.ok resp :: rest) 2 1
       | .error m =>
         if 0 < 2 then llmDecideAux (.ok resp :: rest) 2 1
         else ([], ("request_failed: ".toList) ++ m)) := rfl
  rw [hstep, hmk]
  simp [List.isEmpty_iff, hne]

set_option maxRecDepth 100000 in
/-- C10 witness at a concrete prose response. -/
theorem C10_nonjson_content_passthrough_witness :
    makeRequest ⟨200, [],
      some (JValue.jobj [("choices".toList, JValue.jarr [JValue.jobj
        [("message".toList, JValue.jobj
          [("content".toList, JValue.jstr ("I will greet the player.".toList))])]])])⟩ =
      .ok (stripL ("I will greet the player.".toList)) ∧
    (parseAction (String.mk (stripL ("I will greet the player.".toList)))).1 = none := by
  have h := C10_nonjson_content_passthrough
    ⟨200, [],
      some (JValue.jobj [("choices".toList, JValue.jarr [JValue.jobj
        [("message".toList, JValue.jobj
          [("content".toList, JValue.jstr ("I will greet the player.".toList))])]])])⟩
    [("choices".toList, JValue.jarr [JValue.jobj
        [("message".toList, JValue.jobj
          [("content".toList, JValue.jstr ("I will greet the player.".toList))])]])]
    [("message".toList, JValue.jobj
        [("content".toList, JValue.jstr ("I will greet the player.".toList))])]
    [("content".toList, JValue.jstr ("I will greet the player.".toList))]
    [] ("I will greet the player.".toList) []
    (by decide) (by rfl) (by rfl) (by rfl) (by rfl) (by decide) (by decide)
  exact ⟨h.1, h.2.2⟩

/-! ### C7: the decision tick and the consecutive-error discipline -/

/-- The per-tick inputs drawn from \x60engine_state\x60. -/
structure TickInput where
  currentTime : Int
  playerSpoke : Bool
  player : PRect
  walls : List PRect
  others : List PRect
  entities : List GEntity
  characters : List CharState
deriving DecidableEq

/-- Python truthiness of an optional string field (\x60None\x60 and \x60""\x60
are falsy). -/
def pyTruthyStrOpt : Option (List Char) → Bool
  | none => false
  | some s => !s.isEmpty

/-- \x60should_make_decision\x60 (controller.py lines 49-74). -/
def shouldMakeDecision (ctrl : CtrlState) (currentTime : Int)
    (playerSpoke playerNearby : Bool) : Bool :=
  if playerSpoke then true
  else if pyTruthyStrOpt ctrl.activeMovement && decide (0 < ctrl.movementStepsRemaining) then
    decide (200 ≤ currentTime - ctrl.lastDecisionTime)
  else if ¬ ctrl.idleBehaviorEnabled then false
  else if playerNearby && ctrl.idleBehaviorEnabled then
    decide (ctrl.decisionInterval * 8 ≤ currentTime - ctrl.lastDecisionTime)
  else false

/-- \x60distance < 200\x60 on the exact float square root is the integer
comparison of the squared distance with 200² (lines 89-96). -/
def playerNearbyOf (npc : CharState) (inp : TickInput) : Bool :=
  decide ((inp.player.centerx - npc.rect.centerx) * (inp.player.centerx - npc.rect.centerx) +
    (inp.player.centery - npc.rect.centery) * (inp.player.centery - npc.rect.centery) < 40000)

/-- The error-counter update applied after an executed action (lines 131-134,
147-150, 204-207): reset on success, increment on a result that starts with
\x60invalid\x60 or \x60parse_error\x60. -/
def ceUpdate (result : List Char) (ce : Int) : Int :=
  if ¬ (("invalid".toList).isPrefixOf result) ∧ ¬ (("parse_error".toList).isPrefixOf result)
  then 0 else ce + 1

/-- The state write-back after an executed action (Step 5 and the movement
continuations): record the result and time, then update the counter. -/
def finishDecision (ctrl : CtrlState) (result : List Char) (t : Int) : CtrlState :=
  {ctrl with lastResult := some result, lastDecisionTime := t,
             consecutiveErrors := ceUpdate result ctrl.consecutiveErrors}

/-- The state write-back on an LLM or parse error (lines 179-183, 189-193):
the counter is incremented unconditionally. -/
def finishError (ctrl : CtrlState) (err : List Char) (t : Int) : CtrlState :=
  {ctrl with lastResult := some err, lastDecisionTime := t,
             consecutiveErrors := ctrl.consecutiveErrors + 1}

/-- \x60execute_action\x60 (lines 216-247): dispatch to the per-action
executor; the transfer case drops the updated character list, which lives in
the engine, not in the controller. -/
def executeNPCAction (ctrl : CtrlState) (npc : CharState) (a : NPCAction)
    (inp : TickInput) : CtrlState × CharState × List Char :=
  match a with
  | .say text => executeSay ctrl npc text
  | .move dir dist => executeMoveDir ctrl npc dir dist inp.walls inp.others
  | .moveTo x y => executeMoveTo ctrl npc x y inp.walls inp.others
  | .interact eid => executeInteract ctrl npc eid inp.entities
  | .transferItem eid iid =>
    let r := executeTransferItem ctrl npc eid iid inp.characters
    (r.1, r.2.1, r.2.2.2)

/-- Steps 1-5 of the tick (lines 154-216).  The observation build cannot
fail, so the LLM outcome is abstracted as the \x60(raw_response, llm_error)\x60
pair \x60oracle\x60; an empty error means success.  The unreachable branch in
which the parser reports no error yet returns no action keeps the source
except-branch semantics (counter incremented). -/
def llmPhase (ctrl : CtrlState) (npc : CharState) (inp : TickInput)
    (oracle : List Char × List Char) : CtrlState × CharState × Option (List Char) :=
  let t := inp.currentTime
  if oracle.2 ≠ [] then
    (finishError ctrl oracle.2 t, npc, some oracle.2)
  else
    let p := parseAction (String.mk oracle.1)
    if p.2 ≠ "" then
      (finishError ctrl p.2.toList t, npc, some p.2.toList)
    else
      match p.1 with
      | none =>
        let em := "decision_error: NoneType object has no attribute action".toList
        (finishError ctrl em t, npc, some em)
      | some a =>
        let r := executeNPCAction ctrl npc a inp
        (finishDecision r.1 r.2.2 t, r.2.1, some r.2.2)

/-- The tick body after the error gate (lines 110-216): cooldown decay, then
movement continuation (without the LLM) when a sequence is active, else the
LLM phase.  An active \x60move_dir\x60 sequence always has a stored direction. -/
def afterGate (ctrl : CtrlState) (npc : CharState) (inp : TickInput)
    (oracle : List Char × List Char) : CtrlState × CharState × Option (List Char) :=
  let t := inp.currentTime
  let dt := if 0 < ctrl.lastDecisionTime then t - ctrl.lastDecisionTime else 0
  let ctrl1 := {ctrl with cooldownMove := max 0 (ctrl.cooldownMove - dt), cooldownInteract := max 0 (ctrl.cooldownInteract - dt)}
  if pyTruthyStrOpt ctrl1.activeMovement && decide (0 < ctrl1.movementStepsRemaining) then
    if ctrl1.activeMovement = some ("move_dir".toList) then
      let r := executeMoveDir ctrl1 npc ((ctrl1.movementDirection).getD []) 1 inp.walls inp.others
      (finishDecision r.1 r.2.2 t, r.2.1, some r.2.2)
    else if ctrl1.activeMovement = some ("move_to".toList) then
      let r := continueMoveTo ctrl1 npc inp.walls inp.others
      (finishDecision r.1 r.2.2 t, r.2.1, some r.2.2)
    else llmPhase ctrl1 npc inp oracle
  else llmPhase ctrl1 npc inp oracle

/-- \x60npc_decision_tick\x60 (lines 76-216): decision gate, then the
consecutive-error backoff (lines 103-108), then the body. -/
def npcDecisionTick (ctrl : CtrlState) (npc : CharState) (inp : TickInput)
    (oracle : List Char × List Char) : CtrlState × CharState × Option (List Char) :=
  if ¬ shouldMakeDecision ctrl inp.currentTime inp.playerSpoke (playerNearbyOf npc inp) then
    (ctrl, npc, none)
  else if ctrl.maxConsecutiveErrors ≤ ctrl.consecutiveErrors then
    if inp.currentTime - ctrl.lastDecisionTime < ctrl.errorBackoffTime then (ctrl, npc, none)
    else afterGate {ctrl with consecutiveErrors := 0} npc inp oracle
  else afterGate ctrl npc inp oracle

/-- Controller states reachable from \x60__init__\x60 by decision ticks with
arbitrary inputs and LLM outcomes. -/
inductive CtrlReachable : CtrlState → Prop where
  | init : CtrlReachable initCtrlState
  | step : ∀ s npc inp oracle, CtrlReachable s →
      CtrlReachable (npcDecisionTick s npc inp oracle).1

theorem executeMoveDir_ceFields (ctrl : CtrlState) (npc : CharState) (dir : List Char)
    (dist : ℚ) (walls others : List PRect) :
    (executeMoveDir ctrl npc dir dist walls others).1.consecutiveErrors = ctrl.consecutiveErrors ∧
    (executeMoveDir ctrl npc dir dist walls others).1.maxConsecutiveErrors = ctrl.maxConsecutiveErrors ∧
    (executeMoveDir ctrl npc dir dist walls others).1.errorBackoffTime = ctrl.errorBackoffTime := by
  unfold executeMoveDir
  dsimp only
  split_ifs <;> exact ⟨rfl, rfl, rfl⟩

theorem executeMoveTo_ceFields (ctrl : CtrlState) (npc : CharState) (tx ty : Int)
    (walls others : List PRect) :
    (executeMoveTo ctrl npc tx ty walls others).1.consecutiveErrors = ctrl.consecutiveErrors ∧
    (executeMoveTo ctrl npc tx ty walls others).1.maxConsecutiveErrors = ctrl.maxConsecutiveErrors ∧
    (executeMoveTo ctrl npc tx ty walls others).1.errorBackoffTime = ctrl.errorBackoffTime := by
  unfold executeMoveTo
  dsimp only
  split_ifs <;> exact ⟨rfl, rfl, rfl⟩

theorem continueMoveTo_ceFields (ctrl : CtrlState) (npc : CharState)
    (walls others : List PRect) :
    (continueMoveTo ctrl npc walls others).1.consecutiveErrors = ctrl.consecutiveErrors ∧
    (continueMoveTo ctrl npc walls others).1.maxConsecutiveErrors = ctrl.maxConsecutiveErrors ∧
    (continueMoveTo ctrl npc walls others).1.errorBackoffTime = ctrl.errorBackoffTime := by
  unfold continueMoveTo
  cases hmt : ctrl.movementTarget with
  | none => exact ⟨rfl, rfl, rfl⟩
  | some p =>
    cases p with
    | mk tx ty =>
      dsimp only
      split_ifs <;> exact ⟨rfl, rfl, rfl⟩

theorem executeInteract_ceFields (ctrl : CtrlState) (npc : CharState) (eid : List Char)
    (entities : List GEntity) :
    (executeInteract ctrl npc eid entities).1.consecutiveErrors = ctrl.consecutiveErrors ∧
    (executeInteract ctrl npc eid entities).1.maxConsecutiveErrors = ctrl.maxConsecutiveErrors ∧
    (executeInteract ctrl npc eid entities).1.errorBackoffTime = ctrl.errorBackoffTime := by
  unfold executeInteract
  split_ifs with h1
  · exact ⟨rfl, rfl, rfl⟩
  · cases hf : entities.find? (fun e => e.id == eid) with
    | none => exact ⟨rfl, rfl, rfl⟩
    | some e =>
      dsimp only
      split_ifs <;> exact ⟨rfl, rfl, rfl⟩

theorem executeTransferItem_ceFields (ctrl : CtrlState) (npc : CharState)
    (eid iid : List Char) (characters : List CharState) :
    (executeTransferItem ctrl npc eid iid characters).1.consecutiveErrors = ctrl.consecutiveErrors ∧
    (executeTransferItem ctrl npc eid iid characters).1.maxConsecutiveErrors = ctrl.maxConsecutiveErrors ∧
    (executeTransferItem ctrl npc eid iid characters).1.errorBackoffTime = ctrl.errorBackoffTime := by
  unfold executeTransferItem
  cases hf : characters.findIdx? (fun ch => ch.name == eid) with
  | none => exact ⟨rfl, rfl, rfl⟩
  | some i =>
    dsimp only
    split_ifs <;> exact ⟨rfl, rfl, rfl⟩

theorem executeNPCAction_ceFields (ctrl : CtrlState) (npc : CharState) (a : NPCAction)
    (inp : TickInput) :
    (executeNPCAction ctrl npc a inp).1.consecutiveErrors = ctrl.consecutiveErrors ∧
    (executeNPCAction ctrl npc a inp).1.maxConsecutiveErrors = ctrl.maxConsecutiveErrors ∧
    (executeNPCAction ctrl npc a inp).1.errorBackoffTime = ctrl.errorBackoffTime := by
  cases a with
  | say text => exact ⟨rfl, rfl, rfl⟩
  | move dir dist => exact executeMoveDir_ceFields _ _ _ _ _ _
  | moveTo x y => exact executeMoveTo_ceFields _ _ _ _ _ _
  | interact eid => exact executeInteract_ceFields _ _ _ _
  | transferItem eid iid => exact executeTransferItem_ceFields _ _ _ _ _

theorem ceUpdate_bound (r : List Char) (ce : Int) (h0 : 0 ≤ ce) (h2 : ce ≤ 2) :
    0 ≤ ceUpdate r ce ∧ ceUpdate r ce ≤ 3 := by
  unfold ceUpdate
  split_ifs <;> omega

theorem finishDecision_inv (c : CtrlState) (res : List Char) (t : Int)
    (hm : c.maxConsecutiveErrors = 3) (hb : c.errorBackoffTime = 2000)
    (h0 : 0 ≤ c.consecutiveErrors) (h2 : c.consecutiveErrors ≤ 2) :
    (finishDecision c res t).maxConsecutiveErrors = 3 ∧
    (finishDecision c res t).errorBackoffTime = 2000 ∧
    0 ≤ (finishDecision c res t).consecutiveErrors ∧
    (finishDecision c res t).consecutiveErrors ≤ 3 :=
  ⟨hm, hb, (ceUpdate_bound res c.consecutiveErrors h0 h2).1,
    (ceUpdate_bound res c.consecutiveErrors h0 h2).2⟩

theorem finishError_inv (c : CtrlState) (err : List Char) (t : Int)
    (hm : c.maxConsecutiveErrors = 3) (hb : c.errorBackoffTime = 2000)
    (h0 : 0 ≤ c.consecutiveErrors) (h2 : c.consecutiveErrors ≤ 2) :
    (finishError c err t).maxConsecutiveErrors = 3 ∧
    (finishError c err t).errorBackoffTime = 2000 ∧
    0 ≤ (finishError c err t).consecutiveErrors ∧
    (finishError c err t).consecutiveErrors ≤ 3 :=
  ⟨hm, hb, show (0 : Int) ≤ c.consecutiveErrors + 1 by omega,
    show c.consecutiveErrors + 1 ≤ 3 by omega⟩

theorem llmPhase_inv (ctrl : CtrlState) (npc : CharState) (inp : TickInput)
    (oracle : List Char × List Char)
    (hm : ctrl.maxConsecutiveErrors = 3) (hb : ctrl.errorBackoffTime = 2000)
    (h0 : 0 ≤ ctrl.consecutiveErrors) (h2 : ctrl.consecutiveErrors ≤ 2) :
    (llmPhase ctrl npc inp oracle).1.maxConsecutiveErrors = 3 ∧
    (llmPhase ctrl npc inp oracle).1.errorBackoffTime = 2000 ∧
    0 ≤ (llmPhase ctrl npc inp oracle).1.consecutiveErrors ∧
    (llmPhase ctrl npc inp oracle).1.consecutiveErrors ≤ 3 := by
  unfold llmPhase
  dsimp only
  split_ifs with he hp
  · exact finishError_inv _ _ _ hm hb h0 h2
  · exact finishError_inv _ _ _ hm hb h0 h2
  · cases hpa : (parseAction (String.mk oracle.1)).1 with
    | none => exact finishError_inv _ _ _ hm hb h0 h2
    | some a =>
      obtain ⟨hc, hmx, hbk⟩ := executeNPCAction_ceFields ctrl npc a inp
      exact finishDecision_inv _ _ _ (hmx.trans hm) (hbk.trans hb)
        (by rw [hc]; exact h0) (by rw [hc]; exact h2)

theorem afterGate_inv (ctrl : CtrlState) (npc : CharState) (inp : TickInput)
    (oracle : List Char × List Char)
    (hm : ctrl.maxConsecutiveErrors = 3) (hb : ctrl.errorBackoffTime = 2000)
    (h0 : 0 ≤ ctrl.consecutiveErrors) (h2 : ctrl.consecutiveErrors ≤ 2) :
    (afterGate ctrl npc inp oracle).1.maxConsecutiveErrors = 3 ∧
    (afterGate ctrl npc inp oracle).1.errorBackoffTime = 2000 ∧
    0 ≤ (afterGate ctrl npc inp oracle).1.consecutiveErrors ∧
    (afterGate ctrl npc inp oracle).1.consecutiveErrors ≤ 3 := by
  unfold afterGate
  dsimp only
  generalize (if 0 < ctrl.lastDecisionTime then inp.currentTime - ctrl.lastDecisionTime else 0) = dt
  split_ifs with hact hdir hto
  · refine finishDecision_inv _ _ _ ?_ ?_ ?_ ?_
    · exact ((executeMoveDir_ceFields _ _ _ _ _ _).2.1).trans hm
    · exact ((executeMoveDir_ceFields _ _ _ _ _ _).2.2).trans hb
    · rw [(executeMoveDir_ceFields _ _ _ _ _ _).1]; exact h0
    · rw [(executeMoveDir_ceFields _ _ _ _ _ _).1]; exact h2
  · refine finishDecision_inv _ _ _ ?_ ?_ ?_ ?_
    · exact ((continueMoveTo_ceFields _ _ _ _).2.1).trans hm
    · exact ((continueMoveTo_ceFields _ _ _ _).2.2).trans hb
    · rw [(continueMoveTo_ceFields _ _ _ _).1]; exact h0
    · rw [(continueMoveTo_ceFields _ _ _ _).1]; exact h2
  · exact llmPhase_inv _ npc inp oracle hm hb h0 h2
  · exact llmPhase_inv _ npc inp oracle hm hb h0 h2

theorem tick_inv (s : CtrlState) (npc : CharState) (inp : TickInput)
    (oracle : List Char × List Char)
    (hm : s.maxConsecutiveErrors = 3) (hb : s.errorBackoffTime = 2000)
    (h0 : 0 ≤ s.consecutiveErrors) (h3 : s.consecutiveErrors ≤ 3) :
    (npcDecisionTick s npc inp oracle).1.maxConsecutiveErrors = 3 ∧
    (npcDecisionTick s npc inp oracle).1.errorBackoffTime = 2000 ∧
    0 ≤ (npcDecisionTick s npc inp oracle).1.consecutiveErrors ∧
    (npcDecisionTick s npc inp oracle).1.consecutiveErrors ≤ 3 := by
  unfold npcDecisionTick
  split_ifs with h1 h2g h3g
  all_goals first
    | exact ⟨hm, hb, h0, h3⟩
    | exact afterGate_inv _ npc inp oracle hm hb (le_refl 0) (show (0 : Int) ≤ 2 by omega)
    | exact afterGate_inv _ npc inp oracle hm hb h0 (by rw [hm] at h2g; omega)

theorem parseAction_fst_some_snd (s : String) (a : NPCAction)
    (h : (parseAction s).1 = some a) : (parseAction s).2 = "" := by
  unfold parseAction at h ⊢
  cases hc : parseActionCore (cleanRaw s) with
  | ok b => rfl
  | error e => rw [hc] at h; simp at h

theorem finish_triple_ce (c : CtrlState) (res : List Char) (t : Int) (npc : CharState)
    (s2 : CtrlState) (npc2 : CharState) (r : List Char)
    (heq : ((finishDecision c res t, npc, some res) :
        CtrlState × CharState × Option (List Char)) = (s2, npc2, some r))
    (hi : ("invalid".toList).isPrefixOf r = false)
    (hp : ("parse_error".toList).isPrefixOf r = false) :
    s2.consecutiveErrors = 0 := by
  have h1 : finishDecision c res t = s2 := congrArg Prod.fst heq
  have h3 : (some res : Option (List Char)) = some r := congrArg (fun x => x.2.2) heq
  have hres : res = r := Option.some.inj h3
  rw [← h1]
  show ceUpdate res c.consecutiveErrors = 0
  rw [hres]
  unfold ceUpdate
  rw [if_pos ⟨fun hcon => Bool.false_ne_true (hi.symm.trans hcon),
    fun hcon => Bool.false_ne_true (hp.symm.trans hcon)⟩]

theorem llmPhase_success (c : CtrlState) (npc : CharState) (inp : TickInput)
    (oracle : List Char × List Char) (a : NPCAction) (s2 : CtrlState)
    (npc2 : CharState) (r : List Char)
    (ho : oracle.2 = []) (hpa : (parseAction (String.mk oracle.1)).1 = some a)
    (heq : llmPhase c npc inp oracle = (s2, npc2, some r))
    (hi : ("invalid".toList).isPrefixOf r = false)
    (hp : ("parse_error".toList).isPrefixOf r = false) :
    s2.consecutiveErrors = 0 := by
  unfold llmPhase at heq
  dsimp only at heq
  rw [if_neg (fun hcon => hcon ho)] at heq
  have hsnd : (parseAction (String.mk oracle.1)).2 = "" := parseAction_fst_some_snd _ _ hpa
  rw [if_neg (fun hcon => hcon hsnd)] at heq
  simp only [hpa] at heq
  exact finish_triple_ce _ _ _ _ _ _ _ heq hi hp

theorem afterGate_success (c : CtrlState) (npc : CharState) (inp : TickInput)
    (oracle : List Char × List Char) (a : NPCAction) (s2 : CtrlState)
    (npc2 : CharState) (r : List Char)
    (ho : oracle.2 = []) (hpa : (parseAction (String.mk oracle.1)).1 = some a)
    (heq : afterGate c npc inp oracle = (s2, npc2, some r))
    (hi : ("invalid".toList).isPrefixOf r = false)
    (hp : ("parse_error".toList).isPrefixOf r = false) :
    s2.consecutiveErrors = 0 := by
  unfold afterGate at heq
  dsimp only at heq
  split_ifs at heq with hA hB hC
  all_goals first
    | exact finish_triple_ce _ _ _ _ _ _ _ heq hi hp
    | exact llmPhase_success _ npc inp oracle a s2 npc2 r ho hpa heq hi hp

/-- C7.  (a) Every controller state reachable by decision ticks keeps
\x60consecutive_errors\x60 in [0, 3] (with the cap 3 and backoff 2000 ms
constant); (b) at the cap, a tick within 2000 ms of the last decision
returns \x60None\x60 and leaves the state untouched, whatever the LLM would
answer; (c) once the backoff has elapsed (and a decision is due), the tick
behaves exactly as from the same state with the counter reset to 0; (d) a
tick whose LLM outcome parses to an action and whose returned result starts
with neither \x60invalid\x60 nor \x60parse_error\x60 leaves the counter at 0. -/
theorem C7_consecutive_errors_invariant :
    (∀ s, CtrlReachable s →
      s.maxConsecutiveErrors = 3 ∧ s.errorBackoffTime = 2000 ∧
      0 ≤ s.consecutiveErrors ∧ s.consecutiveErrors ≤ 3) ∧
    (∀ s npc inp oracle, s.maxConsecutiveErrors = 3 → s.errorBackoffTime = 2000 →
      s.consecutiveErrors = 3 → inp.currentTime - s.lastDecisionTime < 2000 →
      npcDecisionTick s npc inp oracle = (s, npc, none)) ∧
    (∀ s npc inp oracle, s.maxConsecutiveErrors = 3 → s.errorBackoffTime = 2000 →
      s.consecutiveErrors = 3 → 2000 ≤ inp.currentTime - s.lastDecisionTime →
      shouldMakeDecision s inp.currentTime inp.playerSpoke (playerNearbyOf npc inp) = true →
      npcDecisionTick s npc inp oracle =
        npcDecisionTick {s with consecutiveErrors := 0} npc inp oracle) ∧
    (∀ s npc inp oracle a s2 npc2 r, oracle.2 = [] →
      (parseAction (String.mk oracle.1)).1 = some a →
      npcDecisionTick s npc inp oracle = (s2, npc2, some r) →
      ("invalid".toList).isPrefixOf r = false →
      ("parse_error".toList).isPrefixOf r = false →
      s2.consecutiveErrors = 0) := by
  refine ⟨?_, ?_, ?_, ?_⟩
  · intro s hs
    induction hs with
    | init => exact ⟨rfl, rfl, le_refl 0, by decide⟩
    | step s npc inp oracle hr ih =>
      exact tick_inv s npc inp oracle ih.1 ih.2.1 ih.2.2.1 ih.2.2.2
  · intro s npc inp oracle hmax hbk hce hel
    unfold npcDecisionTick
    split_ifs with h1 h2g h3g
    all_goals first
      | rfl
      | (exfalso; rw [hbk] at h3g; omega)
      | (exfalso; rw [hmax, hce] at h2g; omega)
  · intro s npc inp oracle hmax hbk hce hel hshould
    have hsame : shouldMakeDecision {s with consecutiveErrors := 0} inp.currentTime
        inp.playerSpoke (playerNearbyOf npc inp) = true := hshould
    have hL : npcDecisionTick s npc inp oracle =
        afterGate {s with consecutiveErrors := 0} npc inp oracle := by
      unfold npcDecisionTick
      rw [if_neg (by rw [hshould]; simp)]
      rw [if_pos (by rw [hmax, hce])]
      rw [if_neg (by rw [hbk]; omega)]
    have hR : npcDecisionTick {s with consecutiveErrors := 0} npc inp oracle =
        afterGate {s with consecutiveErrors := 0} npc inp oracle := by
      unfold npcDecisionTick
      rw [if_neg (by rw [hsame]; simp)]
      rw [if_neg (show ¬ (({s with consecutiveErrors := 0} : CtrlState).maxConsecutiveErrors ≤
        ({s with consecutiveErrors := 0} : CtrlState).consecutiveErrors) from by
          show ¬ (s.maxConsecutiveErrors ≤ (0 : Int)); rw [hmax]; omega)]
    rw [hL, hR]
  · intro s npc inp oracle a s2 npc2 r ho hpa heq hi hp
    unfold npcDecisionTick at heq
    split_ifs at heq with h1 h2g h3g
    all_goals first
      | simp at heq
      | exact afterGate_success _ npc inp oracle a s2 npc2 r ho hpa heq hi hp

set_option maxRecDepth 100000 in
/-- C7 witness: a controller at the error cap, 800 ms after its last
decision, ignores a tick triggered by player speech. -/
theorem C7_consecutive_errors_invariant_witness :
    npcDecisionTick {initCtrlState with consecutiveErrors := 3, lastDecisionTime := 1000}
      ⟨⟨0, 0, 20, 20⟩, 4, [], [], 0, false, none, 100, []⟩
      ⟨1800, true, ⟨100, 100, 20, 20⟩, [], [], [], []⟩ ([], []) =
      ({initCtrlState with consecutiveErrors := 3, lastDecisionTime := 1000},
        ⟨⟨0, 0, 20, 20⟩, 4, [], [], 0, false, none, 100, []⟩, none) :=
  C7_consecutive_errors_invariant.2.1
    {initCtrlState with consecutiveErrors := 3, lastDecisionTime := 1000}
    ⟨⟨0, 0, 20, 20⟩, 4, [], [], 0, false, none, 100, []⟩
    ⟨1800, true, ⟨100, 100, 20, 20⟩, [], [], [], []⟩ ([], [])
    rfl rfl rfl (by decide)
